import Mathlib

/-!
# Verification of the free-viewing-sky experiment code

Shallow embedding of the trial/round orchestration and data pipeline of the
free-viewing experiment (`src/js/image-manager.js`, `src/js/data-manager.js`)
together with proofs and refutations of the specification claims.

Modelling conventions:
* JavaScript numbers are modelled as `JSNum`: either an exact rational or one
  of the non-finite values `NaN`, `Infinity`, `-Infinity`.  The literal
  `16.67` of the source is modelled as the rational `1667/100`.
* `Math.random()`-driven draws are modelled by a stream `rand : Nat → Nat`;
  the draw `Math.floor(Math.random() * (i + 1))`, which is an arbitrary value
  in `[0, i]`, is modelled as `rand i % (i + 1)`, so quantifying over all
  `rand` quantifies over all outcomes of the shuffles.
* A thrown exception is modelled as `none`; because `this.availableImages` is
  mutated in place, the selection operations return the (possibly mutated)
  state alongside the optional result.
-/

namespace FreeViewing

/-- A JavaScript number: a finite (exact rational) value, `NaN`, or `±Infinity`. -/
inductive JSNum where
  | nan
  | posInf
  | negInf
  | finite (q : ℚ)
  deriving DecidableEq, Repr

/-- JS `<` against a finite right operand (`NaN` compares false). -/
def JSNum.ltQ : JSNum → ℚ → Bool
  | .nan, _ => false
  | .posInf, _ => false
  | .negInf, _ => true
  | .finite a, c => decide (a < c)

/-- JS `>=` against a finite right operand (`NaN` compares false). -/
def JSNum.geQ : JSNum → ℚ → Bool
  | .nan, _ => false
  | .posInf, _ => true
  | .negInf, _ => false
  | .finite a, c => decide (a ≥ c)

/-- JS `isNaN` on a number. -/
def JSNum.isNaNb : JSNum → Bool
  | .nan => true
  | _ => false

/-- JS addition on numbers (`NaN` absorbs; `Infinity + -Infinity = NaN`). -/
def JSNum.add : JSNum → JSNum → JSNum
  | .nan, _ => .nan
  | _, .nan => .nan
  | .posInf, .negInf => .nan
  | .negInf, .posInf => .nan
  | .posInf, _ => .posInf
  | _, .posInf => .posInf
  | .negInf, _ => .negInf
  | _, .negInf => .negInf
  | .finite a, .finite b => .finite (a + b)

/-- JS subtraction on numbers. -/
def JSNum.sub : JSNum → JSNum → JSNum
  | .nan, _ => .nan
  | _, .nan => .nan
  | .posInf, .posInf => .nan
  | .negInf, .negInf => .nan
  | .posInf, _ => .posInf
  | _, .posInf => .negInf
  | .negInf, _ => .negInf
  | _, .negInf => .posInf
  | .finite a, .finite b => .finite (a - b)

/-- Division of a JS number by a positive count (used for averaging). -/
def JSNum.divPos : JSNum → Nat → JSNum
  | .nan, _ => .nan
  | .posInf, _ => .posInf
  | .negInf, _ => .negInf
  | .finite a, n => .finite (a / n)

/-- JS `Math.round` on an exact rational: `⌊q + 1/2⌋`. -/
def jsRound (q : ℚ) : Int := ⌊q + 1 / 2⌋

/-- JS `Math.round` on a number (`NaN` and infinities are fixed points). -/
def JSNum.round : JSNum → JSNum
  | .nan => .nan
  | .posInf => .posInf
  | .negInf => .negInf
  | .finite q => .finite (jsRound q)

/-- JS falsiness of a number: `0` and `NaN` are falsy. -/
def JSNum.falsy : JSNum → Bool
  | .nan => true
  | .finite q => decide (q = 0)
  | _ => false

/-!
## `ExperimentController.shuffleArray`

```js
shuffleArray(array) {
    for (let i = array.length - 1; i > 0; i--) {
        const j = Math.floor(Math.random() * (i + 1));
        [array[i], array[j]] = [array[j], array[i]];
    }
}
```
-/
/-- The destructuring swap `[a[i], a[j]] = [a[j], a[i]]` on a list. -/
def swapIdx [Inhabited α] (l : List α) (i j : Nat) : List α :=
  (l.set i (l.getD j default)).set j (l.getD i default)

/-- The loop of `shuffleArray`, counting the index `i` down to `0`. -/
def shuffleAux [Inhabited α] (rand : Nat → Nat) : Nat → List α → List α
  | 0, arr => arr
  | k + 1, arr => shuffleAux rand k (swapIdx arr (k + 1) (rand (k + 1) % (k + 2)))

/-- JS `ExperimentController.shuffleArray`: in-place Fisher–Yates shuffle. -/
def shuffleArray [Inhabited α] (rand : Nat → Nat) (arr : List α) : List α :=
  shuffleAux rand (arr.length - 1) arr

/-!
## `ExperimentController.generateTrialPattern`

```js
generateTrialPattern() {
    const pattern = [];
    for (let i = 0; i < this.imageTrialsPerRound; i++) { pattern.push('image'); }
    for (let i = 0; i < this.fillerTrialsPerRound; i++) { pattern.push('filler'); }
    this.shuffleArray(pattern);
    return pattern;
}
```
with `this.imageTrialsPerRound = 12`, `this.fillerTrialsPerRound = 8`.
-/
/-- Trial classification: `'image'` or `'filler'`. -/
inductive TrialType where
  | image
  | filler
  deriving DecidableEq, Repr, Inhabited

/-- JS `this.imageTrialsPerRound` (constructor constant). -/
def imageTrialsPerRound : Nat := 12

/-- JS `this.fillerTrialsPerRound` (constructor constant). -/
def fillerTrialsPerRound : Nat := 8

/-- JS `this.trialsPerRound` (constructor constant). -/
def trialsPerRound : Nat := 20

/-- JS `this.totalRounds` (constructor constant). -/
def totalRounds : Nat := 3

/-- JS `ExperimentController.generateTrialPattern`. -/
def generateTrialPattern (rand : Nat → Nat) : List TrialType :=
  shuffleArray rand
    (List.replicate imageTrialsPerRound TrialType.image ++
      List.replicate fillerTrialsPerRound TrialType.filler)

/-!
## `ImageManager` image selection

The mutable session state of `ImageManager` (`this.availableImages`) together
with the controller's `this.usedImages` set.  `usedImages` stores the image
*paths* (`images/${img}`), the pools store bare identifiers.
-/
/-- Path building: `` `images/${img}` `` is the key stored in `usedImages`. -/
def imgPath (img : String) : String := "images/" ++ img

/-- JS `pool.filter(img => !usedImages.has(`images/${img}`))`. -/
def availNotUsed (pool used : List String) : List String :=
  pool.filter (fun img => !(used.contains (imgPath img)))

/-- JS `usedImages.add(path)` — JS `Set.add` (no-op when already present). -/
def addUsed (used : List String) (p : String) : List String :=
  if used.contains p then used else used ++ [p]

/-- JS `pool.filter(img => img !== selectedImage)`. -/
def removeImg (pool : List String) (img : String) : List String :=
  pool.filter (fun i => !(i == img))

/-- One iteration of the category loop in `selectImagesForImageTrial`:
filter the pool by the used set, take the first available image (or throw),
remove it from the pool and add its path to the used set. -/
def allocOne (pool used : List String) :
    Option (String × List String × List String) :=
  match (availNotUsed pool used).head? with
  | none => none
  | some img => some (img, removeImg pool img, addUsed used (imgPath img))

/-- The mutable pool state: `this.availableImages` plus the controller's
`this.usedImages`. -/
structure PoolState where
  dysphoric : List String
  threat : List String
  positive : List String
  filler : List String
  used : List String
  deriving DecidableEq, Repr

/-- JS `this.positionNames` — the four quadrant labels. -/
def positionNames : List String :=
  ["top-left", "top-right", "bottom-left", "bottom-right"]

/-- Result object of `selectImagesForImageTrial`: one image per category plus
their assigned positions. -/
structure ImageTrialSel where
  dysphoric : String
  threat : String
  positive : String
  filler : String
  posDysphoric : String
  posThreat : String
  posPositive : String
  posFiller : String
  deriving DecidableEq, Repr

/-- Result object of `selectImagesForFillerTrial`: four filler images plus
their assigned positions. -/
structure FillerTrialSel where
  filler1 : String
  filler2 : String
  filler3 : String
  filler4 : String
  pos1 : String
  pos2 : String
  pos3 : String
  pos4 : String
  deriving DecidableEq, Repr

/-- JS `ImageManager.selectImagesForImageTrial(usedImages)`.

The `forEach` over `['dysphoric','threat','positive']` and the trailing filler
selection are unrolled; each category mutates the pool and the used set before
the next is examined, so a throw on a later category leaves the earlier
mutations in place (the state returned alongside `none`). -/
def selectImagesForImageTrial (rand : Nat → Nat) (s : PoolState) :
    Option ImageTrialSel × PoolState :=
  let ps := shuffleArray rand positionNames
  match allocOne s.dysphoric s.used with
  | none => (none, s)
  | some (d, dPool, u1) =>
    match allocOne s.threat u1 with
    | none => (none, { s with dysphoric := dPool, used := u1 })
    | some (t, tPool, u2) =>
      match allocOne s.positive u2 with
      | none => (none, { s with dysphoric := dPool, threat := tPool, used := u2 })
      | some (p, pPool, u3) =>
        match allocOne s.filler u3 with
        | none =>
            (none, { s with dysphoric := dPool, threat := tPool,
                            positive := pPool, used := u3 })
        | some (f, fPool, u4) =>
            (some { dysphoric := d, threat := t, positive := p, filler := f,
                    posDysphoric := ps.getD 0 "", posThreat := ps.getD 1 "",
                    posPositive := ps.getD 2 "", posFiller := ps.getD 3 "" },
             { s with dysphoric := dPool, threat := tPool,
                      positive := pPool, filler := fPool, used := u4 })

/-- JS `ImageManager.selectImagesForFillerTrial(usedImages)`.

`availableFillerPool` is computed once before the 4-iteration loop; the check
`availableFillerPool.length < 4` happens before any mutation.  The loop is
unrolled. -/
def selectImagesForFillerTrial (rand : Nat → Nat) (s : PoolState) :
    Option FillerTrialSel × PoolState :=
  let ps := shuffleArray rand positionNames
  let avail := availNotUsed s.filler s.used
  if avail.length < 4 then (none, s)
  else
    let f1 := avail.getD 0 ""
    let f2 := avail.getD 1 ""
    let f3 := avail.getD 2 ""
    let f4 := avail.getD 3 ""
    let pool1 := removeImg s.filler f1
    let u1 := addUsed s.used (imgPath f1)
    let pool2 := removeImg pool1 f2
    let u2 := addUsed u1 (imgPath f2)
    let pool3 := removeImg pool2 f3
    let u3 := addUsed u2 (imgPath f3)
    let pool4 := removeImg pool3 f4
    let u4 := addUsed u3 (imgPath f4)
    (some { filler1 := f1, filler2 := f2, filler3 := f3, filler4 := f4,
            pos1 := ps.getD 0 "", pos2 := ps.getD 1 "",
            pos3 := ps.getD 2 "", pos4 := ps.getD 3 "" },
     { s with filler := pool4, used := u4 })

/-- A successful trial selection (either kind). -/
inductive TrialSel where
  | image (sel : ImageTrialSel)
  | filler (sel : FillerTrialSel)
  deriving DecidableEq, Repr

/-- The images of a selection, in selection order. -/
def TrialSel.images : TrialSel → List String
  | .image s => [s.dysphoric, s.threat, s.positive, s.filler]
  | .filler s => [s.filler1, s.filler2, s.filler3, s.filler4]

/-- The assigned quadrant labels of a selection, in selection order. -/
def TrialSel.positions : TrialSel → List String
  | .image s => [s.posDysphoric, s.posThreat, s.posPositive, s.posFiller]
  | .filler s => [s.pos1, s.pos2, s.pos3, s.pos4]

/-- JS `ImageManager.selectImagesForTrial(trialType, usedImages)` (the dispatch
returns the underlying selection unchanged; the `TrialSel` tag only records
which kind it was). -/
def selectImagesForTrial (tt : TrialType) (rand : Nat → Nat) (s : PoolState) :
    Option TrialSel × PoolState :=
  match tt with
  | .image =>
      ((selectImagesForImageTrial rand s).1.map TrialSel.image,
        (selectImagesForImageTrial rand s).2)
  | .filler =>
      ((selectImagesForFillerTrial rand s).1.map TrialSel.filler,
        (selectImagesForFillerTrial rand s).2)

/-- A sequence of `selectImagesForTrial` calls sharing one pool/used-set state:
each call threads the (possibly mutated) state to the next, exactly as the
controller's trial loop does (a failed selection is caught there and the loop
continues).  Returns the successful selections in order. -/
def runTrials : List (TrialType × (Nat → Nat)) → PoolState → List TrialSel × PoolState
  | [], s => ([], s)
  | (tt, r) :: rest, s =>
      match (selectImagesForTrial tt r s).1 with
      | none => runTrials rest (selectImagesForTrial tt r s).2
      | some sel =>
          (sel :: (runTrials rest (selectImagesForTrial tt r s).2).1,
            (runTrials rest (selectImagesForTrial tt r s).2).2)

/-!
## `ExperimentController` round/trial counters

```js
async startRound(roundNumber) {
    this.currentRound = roundNumber;
    this.roundTrialCounter = 0;
    ...
    if (roundNumber === 1) { ... this.isExperimentRunning = true; ... }
    ...
    await this.runRoundTrials();
}
async runRoundTrials() {
    const trialPattern = this.generateTrialPattern();
    for (let i = 0; i < this.trialsPerRound; i++) {
        if (!this.isExperimentRunning) { break; }
        this.roundTrialCounter++;
        this.globalTrialCounter++;
        ...
        try { await this.runSingleTrial(trialType); } catch (error) { ... }
        ...
    }
    await this.completeRound();
}
```
`runSingleTrial` touches neither counter; its errors are caught and the loop
continues, so the counter arithmetic is exactly the loop below.
-/
/-- The counter state of `ExperimentController`. -/
structure CtrlState where
  currentRound : Nat
  roundTrialCounter : Nat
  globalTrialCounter : Nat
  isExperimentRunning : Bool
  deriving DecidableEq, Repr

/-- Constructor state: counters zeroed, experiment not yet running. -/
def ctrlInit : CtrlState :=
  { currentRound := 1, roundTrialCounter := 0, globalTrialCounter := 0,
    isExperimentRunning := false }

/-- The counter mutations of `startRound` before the trial loop. -/
def roundEntryState (roundNumber : Nat) (s : CtrlState) : CtrlState :=
  let s1 := { s with currentRound := roundNumber, roundTrialCounter := 0 }
  if roundNumber = 1 then { s1 with isExperimentRunning := true } else s1

/-- The counter effect of the `for` loop of `runRoundTrials` with `n`
iterations remaining. -/
def runRoundLoop : Nat → CtrlState → CtrlState
  | 0, s => s
  | n + 1, s =>
      if s.isExperimentRunning then
        runRoundLoop n
          { s with roundTrialCounter := s.roundTrialCounter + 1,
                   globalTrialCounter := s.globalTrialCounter + 1 }
      else s

/-- JS `startRound`: reset the round-local counter, then run the 20-trial loop. -/
def startRound (roundNumber : Nat) (s : CtrlState) : CtrlState :=
  runRoundLoop trialsPerRound (roundEntryState roundNumber s)

/-- A full session: rounds 1, 2 and 3 in order (the inter-round screens and
password gates touch no counters). -/
def runSession : CtrlState :=
  startRound 3 (startRound 2 (startRound 1 ctrlInit))

/-!
## `DataManager` — quadrant classification and dwell times

```js
getQuadrant(x, y) {
    const centerX = window.innerWidth / 2;
    const centerY = window.innerHeight / 2;
    if (x < centerX && y < centerY) return 'top-left';
    if (x >= centerX && y < centerY) return 'top-right';
    if (x < centerX && y >= centerY) return 'bottom-left';
    return 'bottom-right';
}
```
The viewport dimensions `window.innerWidth`/`window.innerHeight` are external
inputs and appear as parameters `w`, `h`.
-/
/-- One raw mouse sample as delivered by the tracking collaborator; any field
may be absent (`undefined`) and the coordinates may be non-finite. -/
structure MousePoint where
  x : Option JSNum
  y : Option JSNum
  timestamp : Option JSNum
  timeInTrial : Option JSNum
  velocity : Option JSNum
  distanceFromPrevious : Option JSNum
  deriving DecidableEq, Repr

/-- JS `DataManager.getQuadrant(x, y)`. -/
def getQuadrant (w h : ℚ) (x y : JSNum) : String :=
  let centerX := w / 2
  let centerY := h / 2
  if x.ltQ centerX && y.ltQ centerY then "top-left"
  else if x.geQ centerX && y.ltQ centerY then "top-right"
  else if x.ltQ centerX && y.geQ centerY then "bottom-left"
  else "bottom-right"

/-- Per-quadrant dwell-time record (`quadrantTimes` object). -/
structure QuadTimes (α : Type) where
  topLeft : α
  topRight : α
  bottomLeft : α
  bottomRight : α
  deriving DecidableEq, Repr

/-- JS `timePerPoint = 16.67` (milliseconds), the fixed per-sample accrual. -/
def timePerPoint : ℚ := 1667 / 100

/-- One `forEach` step of `calculateQuadrantTimes`: a point with both
coordinates present (of `number` type) accrues `timePerPoint` to the branch
selected by the comparisons; any other sample is skipped. -/
def quadAccrueStep (w h : ℚ) (acc : QuadTimes ℚ) (op : Option MousePoint) :
    QuadTimes ℚ :=
  match op with
  | none => acc
  | some p =>
      match p.x, p.y with
      | some px, some py =>
          if px.ltQ (w / 2) && py.ltQ (h / 2) then
            { acc with topLeft := acc.topLeft + timePerPoint }
          else if px.geQ (w / 2) && py.ltQ (h / 2) then
            { acc with topRight := acc.topRight + timePerPoint }
          else if px.ltQ (w / 2) && py.geQ (h / 2) then
            { acc with bottomLeft := acc.bottomLeft + timePerPoint }
          else
            { acc with bottomRight := acc.bottomRight + timePerPoint }
      | _, _ => acc

/-- JS `DataManager.calculateQuadrantTimes(mouseData)`: fixed accrual of
`16.67 ms` per retained sample, then `Math.round` on each total.  The
timestamps of the samples are never consulted. -/
def calculateQuadrantTimes (w h : ℚ) (mouseData : List (Option MousePoint)) :
    QuadTimes Int :=
  let raw := mouseData.foldl (quadAccrueStep w h)
    { topLeft := 0, topRight := 0, bottomLeft := 0, bottomRight := 0 }
  { topLeft := jsRound raw.topLeft, topRight := jsRound raw.topRight,
    bottomLeft := jsRound raw.bottomLeft, bottomRight := jsRound raw.bottomRight }

/-- A fully-formed sample as the specification describes one: finite
coordinates and a timestamp. -/
structure SpecSample where
  x : ℚ
  y : ℚ
  t : ℚ
  deriving DecidableEq, Repr

/-- Modelled from the spec (refinement comparison only, not from the source):
“for consecutive sample pairs, the quadrant containing the first sample
accrues the elapsed time between the pair's timestamps”, with the boundary at
the screen center, ties to the left/top, and pairs whose time delta is
negative or greater than 5000 ms contributing nothing. -/
def specQuadrantTimes (w h : ℚ) : List SpecSample → QuadTimes ℚ → QuadTimes ℚ
  | p1 :: p2 :: rest, acc =>
      let delta := p2.t - p1.t
      if 0 ≤ delta ∧ delta ≤ 5000 then
        let acc' :=
          if p1.x ≤ w / 2 && p1.y ≤ h / 2 then
            { acc with topLeft := acc.topLeft + delta }
          else if p1.y ≤ h / 2 then
            { acc with topRight := acc.topRight + delta }
          else if p1.x ≤ w / 2 then
            { acc with bottomLeft := acc.bottomLeft + delta }
          else
            { acc with bottomRight := acc.bottomRight + delta }
        specQuadrantTimes w h (p2 :: rest) acc'
      else specQuadrantTimes w h (p2 :: rest) acc
  | _, acc => acc

/-- Counting step mirroring the branch structure of `quadAccrueStep`. -/
def quadCountStep (w h : ℚ) (acc : QuadTimes Nat) (op : Option MousePoint) :
    QuadTimes Nat :=
  match op with
  | none => acc
  | some p =>
      match p.x, p.y with
      | some px, some py =>
          if px.ltQ (w / 2) && py.ltQ (h / 2) then
            { acc with topLeft := acc.topLeft + 1 }
          else if px.geQ (w / 2) && py.ltQ (h / 2) then
            { acc with topRight := acc.topRight + 1 }
          else if px.ltQ (w / 2) && py.geQ (h / 2) then
            { acc with bottomLeft := acc.bottomLeft + 1 }
          else
            { acc with bottomRight := acc.bottomRight + 1 }
      | _, _ => acc

/-- Number of retained samples that fall in each quadrant under the branch
conditions of `calculateQuadrantTimes`. -/
def quadCounts (w h : ℚ) (mouseData : List (Option MousePoint)) : QuadTimes Nat :=
  mouseData.foldl (quadCountStep w h)
    { topLeft := 0, topRight := 0, bottomLeft := 0, bottomRight := 0 }

/-!
## `DataManager.recordTrialData` — aggregates over the sample stream
-/
/-- JS `<=` against a finite right operand (`NaN` compares false). -/
def JSNum.leQ : JSNum → ℚ → Bool
  | .nan, _ => false
  | .posInf, _ => false
  | .negInf, _ => true
  | .finite a, c => decide (a ≤ c)

/-- JS multiplication on numbers (`Infinity * 0 = NaN`). -/
def JSNum.mul : JSNum → JSNum → JSNum
  | .nan, _ => .nan
  | _, .nan => .nan
  | .posInf, .posInf => .posInf
  | .posInf, .negInf => .negInf
  | .negInf, .posInf => .negInf
  | .negInf, .negInf => .posInf
  | .posInf, .finite b => if b = 0 then .nan else if 0 < b then .posInf else .negInf
  | .finite a, .posInf => if a = 0 then .nan else if 0 < a then .posInf else .negInf
  | .negInf, .finite b => if b = 0 then .nan else if 0 < b then .negInf else .posInf
  | .finite a, .negInf => if a = 0 then .nan else if 0 < a then .negInf else .posInf
  | .finite a, .finite b => .finite (a * b)

/-- Reading `point.x` for arithmetic: an absent (`undefined`) coordinate
behaves as `NaN` under every arithmetic operation, which is exactly how
`undefined` propagates through JS arithmetic. -/
def MousePoint.xNum (p : MousePoint) : JSNum := p.x.getD .nan

/-- Reading `point.y` for arithmetic (see `MousePoint.xNum`). -/
def MousePoint.yNum (p : MousePoint) : JSNum := p.y.getD .nan

/-- The filter of `recordTrialData`:
`point && typeof point.x === 'number' && !isNaN(point.x) &&
 typeof point.y === 'number' && !isNaN(point.y)`.
An infinite coordinate passes (`isNaN(Infinity)` is `false`). -/
def validPoint : Option MousePoint → Bool
  | none => false
  | some p =>
      match p.x, p.y with
      | some px, some py => !px.isNaNb && !py.isNaNb
      | _, _ => false

/-- JS `const validPoints = mouseData.filter(...)`. -/
def validPoints (mouseData : List (Option MousePoint)) : List (Option MousePoint) :=
  mouseData.filter validPoint

/-- JS `validPoints.reduce((sum, point) => sum + point.x, 0)` (the `none` case is
unreachable: the filter removed null points). -/
def sumCoord (f : MousePoint → JSNum) (l : List (Option MousePoint)) : JSNum :=
  l.foldl
    (fun acc op =>
      match op with
      | none => acc
      | some p => acc.add (f p))
    (.finite 0)

/-- JS `Math.round(sum / validPoints.length)` for the average-position fields. -/
def avgCoord (f : MousePoint → JSNum) (l : List (Option MousePoint)) : JSNum :=
  ((sumCoord f l).divPos l.length).round

/-- The movement-distance loop: Euclidean distance between consecutive valid
points, summed, then rounded.  `Math.sqrt` is an external real-valued
operation and appears as the parameter `sqrtFn`. -/
def totalMouseDistance (sqrtFn : JSNum → JSNum)
    (l : List (Option MousePoint)) : JSNum :=
  ((l.zip l.tail).foldl
    (fun (acc : JSNum) (pq : Option MousePoint × Option MousePoint) =>
      match pq with
      | (some a, some b) =>
          let dx := b.xNum.sub a.xNum
          let dy := b.yNum.sub a.yNum
          acc.add (sqrtFn ((dx.mul dx).add (dy.mul dy)))
      | _ => acc)
    (.finite 0)).round

/-!
## JS records (ordered key/value objects) and CSV cells
-/
/-- A JS value as stored in the trial/mouse records. -/
inductive JSValue where
  | vStr (s : String)
  | vNum (n : JSNum)
  | vUndef
  deriving DecidableEq, Repr

/-- JS falsiness of a record value (`''`, `0`, `NaN`, `undefined`). -/
def jsFalsy : JSValue → Bool
  | .vStr s => s == ""
  | .vNum n => n.falsy
  | .vUndef => true

/-- String coercion of a value for CSV emission.  The exact JS float-to-string
format is irrelevant to every claim; integers print exactly, other rationals
print as `num/den`. -/
def jsDisplay : JSValue → String
  | .vUndef => "undefined"
  | .vStr s => s
  | .vNum .nan => "NaN"
  | .vNum .posInf => "Infinity"
  | .vNum .negInf => "-Infinity"
  | .vNum (.finite q) =>
      if q.den = 1 then toString q.num else toString q.num ++ "/" ++ toString q.den

/-- A JS object with string keys, as an insertion-ordered association list. -/
abbrev JSRecord := List (String × JSValue)

/-- JS `obj[k] = v`: overwrite in place when the key exists (keeping its
position), append otherwise — JS property-assignment semantics. -/
def setField (r : JSRecord) (k : String) (v : JSValue) : JSRecord :=
  if (r.map Prod.fst).contains k then
    r.map (fun kv => if kv.1 == k then (k, v) else kv)
  else r ++ [(k, v)]

/-- JS `obj[k]` (missing keys read as `undefined`, here `none`). -/
def lookupField (r : JSRecord) (k : String) : Option JSValue :=
  (r.find? (fun kv => kv.1 == k)).map Prod.snd

/-- JS `record[field] || ''` followed by string coercion — the cell emitted by
`exportMouseData` for one field.  Every falsy value, the number `0` included,
becomes the empty string. -/
def mouseCsvCell (o : Option JSValue) : String :=
  match o with
  | none => ""
  | some v => if jsFalsy v then "" else jsDisplay v

/-- JS `value.includes(',')`, embedded as a character-list search. -/
def containsComma (s : String) : Bool := s.data.contains ','

/-- The cell emitted by `exportTrialData`: strings containing a comma are
quoted, everything else goes through `value || ''`. -/
def trialCsvCell (o : Option JSValue) : String :=
  match o with
  | some (.vStr s) =>
      if containsComma s then "\"" ++ s ++ "\"" else mouseCsvCell o
  | _ => mouseCsvCell o

/-- JS `DataManager.exportMouseData`: header from the first record's keys, one
row per record, cells through `record[field] || ''`.  `none` models the
early return on an empty store. -/
def exportMouseData (recs : List JSRecord) :
    Option (List String × List (List String)) :=
  match recs with
  | [] => none
  | r0 :: _ =>
      let fieldNames := r0.map Prod.fst
      some (fieldNames,
        recs.map (fun r => fieldNames.map (fun f => mouseCsvCell (lookupField r f))))

/-- JS `key.startsWith('_')`: a single-character prefix test, embedded as a
check on the first character. -/
def startsWithUnderscore (k : String) : Bool := k.data.head? == some '_'

/-- JS `DataManager.exportTrialData`: header from the first record's keys
(dropping keys that start with `_`), one row per record. -/
def exportTrialData (recs : List JSRecord) :
    Option (List String × List (List String)) :=
  match recs with
  | [] => none
  | r0 :: _ =>
      let fieldNames := (r0.map Prod.fst).filter (fun k => !(startsWithUnderscore k))
      some (fieldNames,
        recs.map (fun r => fieldNames.map (fun f => trialCsvCell (lookupField r f))))

/-!
## `DataManager.recordTrialData` and `recordMouseData`
-/
/-- The `imageData.positions` object (fields may be absent depending on the
trial kind that produced it). -/
structure PositionsObj where
  dysphoric : Option String
  threat : Option String
  positive : Option String
  filler : Option String
  filler1 : Option String
  filler2 : Option String
  filler3 : Option String
  filler4 : Option String
  deriving DecidableEq, Repr

/-- The `imageData` object handed to `recordTrialData` (the selection result
of `ImageManager`). -/
structure ImageData where
  dysphoric : Option String
  threat : Option String
  positive : Option String
  filler : Option String
  filler1 : Option String
  filler2 : Option String
  filler3 : Option String
  filler4 : Option String
  positions : Option PositionsObj
  deriving DecidableEq, Repr

/-- What the controller passes for an image trial. -/
def ImageTrialSel.toImageData (s : ImageTrialSel) : ImageData :=
  { dysphoric := some s.dysphoric, threat := some s.threat,
    positive := some s.positive, filler := some s.filler,
    filler1 := none, filler2 := none, filler3 := none, filler4 := none,
    positions := some
      { dysphoric := some s.posDysphoric, threat := some s.posThreat,
        positive := some s.posPositive, filler := some s.posFiller,
        filler1 := none, filler2 := none, filler3 := none, filler4 := none } }

/-- What the controller passes for a filler trial. -/
def FillerTrialSel.toImageData (s : FillerTrialSel) : ImageData :=
  { dysphoric := none, threat := none, positive := none, filler := none,
    filler1 := some s.filler1, filler2 := some s.filler2,
    filler3 := some s.filler3, filler4 := some s.filler4,
    positions := some
      { dysphoric := none, threat := none, positive := none, filler := none,
        filler1 := some s.pos1, filler2 := some s.pos2,
        filler3 := some s.pos3, filler4 := some s.pos4 } }

/-- JS `o || d` for an optional string (the empty string is falsy). -/
def jsOrStr (o : Option String) (d : String) : String :=
  match o with
  | none => d
  | some "" => d
  | some s => s

/-- JS `o || d` for an optional count (`0` is falsy). -/
def jsOrNat (o : Option Nat) (d : Nat) : Nat :=
  match o with
  | none => d
  | some 0 => d
  | some n => n

/-- JS `o || 0` for a number read out of the image-times object (`NaN` and `0`
are falsy). -/
def jsOrNumZero (o : Option JSNum) : JSNum :=
  match o with
  | none => .finite 0
  | some v => if v.falsy then .finite 0 else v

/-- A displayed image's bounding rectangle (`getBoundingClientRect`). -/
structure Rect where
  left : ℚ
  right : ℚ
  top : ℚ
  bottom : ℚ
  deriving DecidableEq, Repr

/-- JS `trialInfo` as assembled by `startTrial` plus the round fields the
controller adds. -/
structure TrialInfo where
  trialIndex : Nat
  roundNumber : Option Nat
  roundTrialIndex : Option Nat
  trialType : Option String
  relativeStartTime : ℚ
  deriving DecidableEq, Repr

/-- JS `point.x >= b.left && point.x <= b.right && point.y >= b.top &&
point.y <= b.bottom`. -/
def inRect (x y : JSNum) (b : Rect) : Bool :=
  x.geQ b.left && x.leQ b.right && y.geQ b.top && y.leQ b.bottom

/-- JS `DataManager.calculateImageViewingTimes(mouseData, imageData, trialType)`.

The DOM state is external: `containerPresent` models
`document.getElementById('image-container')` succeeding, and `bounds p`
models the rectangle of the image element at position `p` (`none` when the
element is missing or hidden).  A missing key in `imagePositionMap`
(an `undefined` position) is read back as the literal key `"undefined"`,
as JS bracket assignment would produce. -/
def calculateImageViewingTimes (containerPresent : Bool)
    (bounds : String → Option Rect)
    (mouseData : List (Option MousePoint)) (imageData : ImageData)
    (trialType : Option String) : List (String × JSNum) :=
  if mouseData.length = 0 then
    if trialType == some "image" then
      [("dysphoric", .finite 0), ("threat", .finite 0),
        ("positive", .finite 0), ("filler", .finite 0)]
    else if trialType == some "filler" then
      [("filler1", .finite 0), ("filler2", .finite 0),
        ("filler3", .finite 0), ("filler4", .finite 0)]
    else []
  else if !containerPresent then []
  else
    let imageBounds : List (String × Rect) :=
      positionNames.filterMap (fun p => (bounds p).map (fun b => (p, b)))
    let imagePositionMap : List (String × String) :=
      match trialType, imageData.positions with
      | some "image", some pos =>
          [(jsOrStr pos.dysphoric "undefined", "dysphoric"),
            (jsOrStr pos.threat "undefined", "threat"),
            (jsOrStr pos.positive "undefined", "positive"),
            (jsOrStr pos.filler "undefined", "filler")]
      | some "filler", some pos =>
          [(jsOrStr pos.filler1 "undefined", "filler1"),
            (jsOrStr pos.filler2 "undefined", "filler2"),
            (jsOrStr pos.filler3 "undefined", "filler3"),
            (jsOrStr pos.filler4 "undefined", "filler4")]
      | _, _ => []
    let init : List (String × JSNum) :=
      imagePositionMap.map (fun e => (e.2, .finite 0))
    let accrued := mouseData.foldl
      (fun (times : List (String × JSNum)) op =>
        match op with
        | none => times
        | some p =>
            match p.x, p.y with
            | some px, some py =>
                imageBounds.foldl
                  (fun (ts : List (String × JSNum)) pb =>
                    match (imagePositionMap.find? (fun e => e.1 == pb.1)).map
                        Prod.snd with
                    | none => ts
                    | some imageName =>
                        if inRect px py pb.2 then
                          let old := ((ts.find? (fun e => e.1 == imageName)).map
                            Prod.snd).getD .nan
                          if (ts.map Prod.fst).contains imageName then
                            ts.map (fun e => if e.1 == imageName then
                              (imageName, old.add (.finite timePerPoint)) else e)
                          else ts ++ [(imageName, old.add (.finite timePerPoint))]
                        else ts)
                  times
            | _, _ => times)
      init
    accrued.map (fun e => (e.1, e.2.round))

/-- JS `DataManager.recordTrialData(trialInfo, imageData, mouseData)`, returning
the trial record it pushes onto `this.trialData`.

Wall-clock strings (`trial_start_time`, `timestamp`), the measured duration
and the viewport size are external inputs and appear as parameters; so do the
DOM bounds used for per-image times and `Math.sqrt`. -/
def recordTrialData (info : TrialInfo) (imageData : ImageData)
    (mouseData : List (Option MousePoint))
    (duration : ℚ) (startIso timestampIso : String) (w h : ℚ)
    (containerPresent : Bool) (bounds : String → Option Rect)
    (sqrtFn : JSNum → JSNum) : JSRecord :=
  let base : JSRecord :=
    [("trial_idx", .vNum (.finite (info.trialIndex + 1))),
      ("round_number", .vNum (.finite (jsOrNat info.roundNumber 1))),
      ("round_trial_idx", .vNum (.finite (jsOrNat info.roundTrialIndex 1))),
      ("trial_type", .vStr (jsOrStr info.trialType "image")),
      ("img_dysphoric", .vStr ""), ("img_threat", .vStr ""),
      ("img_positive", .vStr ""), ("img_filler", .vStr ""),
      ("position_dysphoric", .vStr ""), ("position_threat", .vStr ""),
      ("position_positive", .vStr ""), ("position_filler", .vStr ""),
      ("filler_1", .vStr ""), ("filler_2", .vStr ""),
      ("filler_3", .vStr ""), ("filler_4", .vStr ""),
      ("position_filler_1", .vStr ""), ("position_filler_2", .vStr ""),
      ("position_filler_3", .vStr ""), ("position_filler_4", .vStr ""),
      ("trial_start_time", .vStr startIso),
      ("trial_duration_ms", .vNum (.finite duration)),
      ("relative_start_time_ms", .vNum (.finite info.relativeStartTime)),
      ("timestamp", .vStr timestampIso),
      ("viewport_width", .vNum (.finite w)),
      ("viewport_height", .vNum (.finite h))]
  let rec1 :=
    if info.trialType == some "image" then
      let r := setField (setField (setField (setField base
        "img_dysphoric" (.vStr (jsOrStr imageData.dysphoric "")))
        "img_threat" (.vStr (jsOrStr imageData.threat "")))
        "img_positive" (.vStr (jsOrStr imageData.positive "")))
        "img_filler" (.vStr (jsOrStr imageData.filler ""))
      match imageData.positions with
      | none => r
      | some pos =>
          setField (setField (setField (setField r
            "position_dysphoric" (.vStr (jsOrStr pos.dysphoric "")))
            "position_threat" (.vStr (jsOrStr pos.threat "")))
            "position_positive" (.vStr (jsOrStr pos.positive "")))
            "position_filler" (.vStr (jsOrStr pos.filler ""))
    else if info.trialType == some "filler" then
      let r := setField (setField (setField (setField base
        "filler_1" (.vStr (jsOrStr imageData.filler1 "")))
        "filler_2" (.vStr (jsOrStr imageData.filler2 "")))
        "filler_3" (.vStr (jsOrStr imageData.filler3 "")))
        "filler_4" (.vStr (jsOrStr imageData.filler4 ""))
      match imageData.positions with
      | none => r
      | some pos =>
          setField (setField (setField (setField r
            "position_filler_1" (.vStr (jsOrStr pos.filler1 "")))
            "position_filler_2" (.vStr (jsOrStr pos.filler2 "")))
            "position_filler_3" (.vStr (jsOrStr pos.filler3 "")))
            "position_filler_4" (.vStr (jsOrStr pos.filler4 ""))
    else base
  if 0 < mouseData.length then
    let valid := validPoints mouseData
    let r1 := setField rec1 "mouse_data_points" (.vNum (.finite mouseData.length))
    let r2 :=
      if 0 < valid.length then
        setField (setField (setField r1
          "avg_mouse_x" (.vNum (avgCoord MousePoint.xNum valid)))
          "avg_mouse_y" (.vNum (avgCoord MousePoint.yNum valid)))
          "total_mouse_distance" (.vNum (totalMouseDistance sqrtFn valid))
      else
        setField (setField (setField r1
          "avg_mouse_x" (.vNum (.finite 0)))
          "avg_mouse_y" (.vNum (.finite 0)))
          "total_mouse_distance" (.vNum (.finite 0))
    let qt := calculateQuadrantTimes w h mouseData
    let r3 := setField (setField (setField (setField r2
      "time_top_left" (.vNum (.finite qt.topLeft)))
      "time_top_right" (.vNum (.finite qt.topRight)))
      "time_bottom_left" (.vNum (.finite qt.bottomLeft)))
      "time_bottom_right" (.vNum (.finite qt.bottomRight))
    let it := calculateImageViewingTimes containerPresent bounds mouseData
      imageData info.trialType
    if info.trialType == some "image" then
      setField (setField (setField (setField r3
        "time_on_dysphoric"
          (.vNum (jsOrNumZero (((it.find? (fun e => e.1 == "dysphoric")).map
            Prod.snd)))))
        "time_on_threat"
          (.vNum (jsOrNumZero (((it.find? (fun e => e.1 == "threat")).map
            Prod.snd)))))
        "time_on_positive"
          (.vNum (jsOrNumZero (((it.find? (fun e => e.1 == "positive")).map
            Prod.snd)))))
        "time_on_filler"
          (.vNum (jsOrNumZero (((it.find? (fun e => e.1 == "filler")).map
            Prod.snd))))
    else if info.trialType == some "filler" then
      setField (setField (setField (setField r3
        "time_on_filler_1"
          (.vNum (jsOrNumZero (((it.find? (fun e => e.1 == "filler1")).map
            Prod.snd)))))
        "time_on_filler_2"
          (.vNum (jsOrNumZero (((it.find? (fun e => e.1 == "filler2")).map
            Prod.snd)))))
        "time_on_filler_3"
          (.vNum (jsOrNumZero (((it.find? (fun e => e.1 == "filler3")).map
            Prod.snd)))))
        "time_on_filler_4"
          (.vNum (jsOrNumZero (((it.find? (fun e => e.1 == "filler4")).map
            Prod.snd))))
    else r3
  else
    setField (setField (setField (setField (setField (setField (setField
      (setField rec1
      "mouse_data_points" (.vNum (.finite 0)))
      "avg_mouse_x" (.vNum (.finite 0)))
      "avg_mouse_y" (.vNum (.finite 0)))
      "total_mouse_distance" (.vNum (.finite 0)))
      "time_top_left" (.vNum (.finite 0)))
      "time_top_right" (.vNum (.finite 0)))
      "time_bottom_left" (.vNum (.finite 0)))
      "time_bottom_right" (.vNum (.finite 0))

/-- JS `o || d` on a JS number value with a numeric default. -/
def jsOrNum (o : Option JSNum) (d : JSNum) : JSNum :=
  match o with
  | none => d
  | some v => if v.falsy then d else v

/-- JS `DataManager.recordMouseData(mouseData, trialIndex, trialType, ...)`:
the per-sample records appended to `this.mouseTrackingData`.  A sample is
kept when it is an object with numeric `x` and `y` (`NaN` passes — there is
no `isNaN` check here); the point index counts positions in the raw stream.
`Date.now()` is the external parameter `nowMs`. -/
def recordMouseDataAux (w h : ℚ) (trialIndex : Nat) (trialType : String)
    (roundNumber roundTrialIndex : Nat) (nowMs : ℚ) :
    Nat → List (Option MousePoint) → List JSRecord
  | _, [] => []
  | pointIndex, op :: rest =>
      let tail := recordMouseDataAux w h trialIndex trialType roundNumber
        roundTrialIndex nowMs (pointIndex + 1) rest
      match op with
      | none => tail
      | some p =>
          match p.x, p.y with
          | some px, some py =>
              [("trial_idx", .vNum (.finite (trialIndex + 1))),
                ("round_number", .vNum (.finite roundNumber)),
                ("round_trial_idx", .vNum (.finite roundTrialIndex)),
                ("trial_type", .vStr trialType),
                ("point_index", .vNum (.finite (pointIndex + 1))),
                ("mouse_x", .vNum px.round),
                ("mouse_y", .vNum py.round),
                ("timestamp", .vNum (jsOrNum p.timestamp (.finite nowMs))),
                ("time_in_trial", .vNum (jsOrNum p.timeInTrial (.finite 0))),
                ("quadrant", .vStr (getQuadrant w h px py)),
                ("velocity", .vNum (jsOrNum p.velocity (.finite 0))),
                ("distance_from_previous",
                  .vNum (jsOrNum p.distanceFromPrevious (.finite 0)))] :: tail
          | _, _ => tail

def recordMouseData (w h : ℚ) (mouseData : List (Option MousePoint))
    (trialIndex : Nat) (trialType : String)
    (roundNumber roundTrialIndex : Nat) (nowMs : ℚ) : List JSRecord :=
  recordMouseDataAux w h trialIndex trialType roundNumber roundTrialIndex
    nowMs 0 mouseData

/-- The coordinate content of a raw sample (everything
`calculateQuadrantTimes` ever reads). -/
def sampleCoords (op : Option MousePoint) : Option (Option JSNum × Option JSNum) :=
  op.map (fun p => (p.x, p.y))

/-- The keys of the trial-record literal of `recordTrialData`, in insertion
order. -/
def trialBaseKeys : List String :=
  ["trial_idx", "round_number", "round_trial_idx", "trial_type",
    "img_dysphoric", "img_threat", "img_positive", "img_filler",
    "position_dysphoric", "position_threat", "position_positive",
    "position_filler",
    "filler_1", "filler_2", "filler_3", "filler_4",
    "position_filler_1", "position_filler_2", "position_filler_3",
    "position_filler_4",
    "trial_start_time", "trial_duration_ms", "relative_start_time_ms",
    "timestamp", "viewport_width", "viewport_height"]

/-- The keys appended by the mouse-summary section of `recordTrialData`
(both with and without mouse data). -/
def mouseSummaryKeys : List String :=
  ["mouse_data_points", "avg_mouse_x", "avg_mouse_y", "total_mouse_distance",
    "time_top_left", "time_top_right", "time_bottom_left", "time_bottom_right"]

/-- The per-image dwell keys appended only for image trials with mouse data. -/
def imageTimeKeys : List String :=
  ["time_on_dysphoric", "time_on_threat", "time_on_positive", "time_on_filler"]

/-- The per-image dwell keys appended only for filler trials with mouse data. -/
def fillerTimeKeys : List String :=
  ["time_on_filler_1", "time_on_filler_2", "time_on_filler_3",
    "time_on_filler_4"]

/-- A well-formed sample used by the concrete export scenarios. -/
def plainSample : Option MousePoint :=
  some ⟨some (.finite 1), some (.finite 2), none, none, none, none⟩

/-- A concrete image-trial record with mouse data (export scenario). -/
def imageTrialRecord : JSRecord :=
  recordTrialData ⟨0, some 1, some 1, some "image", 0⟩
    (ImageTrialSel.toImageData ⟨"d1", "t1", "p1", "f1",
      "top-left", "top-right", "bottom-left", "bottom-right"⟩)
    [plainSample] 0 "start" "ts" 800 600 true (fun _ => none) (fun x => x)

/-- A concrete filler-trial record with mouse data (export scenario). -/
def fillerTrialRecord : JSRecord :=
  recordTrialData ⟨1, some 1, some 2, some "filler", 0⟩
    (FillerTrialSel.toImageData ⟨"f2", "f3", "f4", "f5",
      "top-left", "top-right", "bottom-left", "bottom-right"⟩)
    [plainSample] 0 "start" "ts" 800 600 true (fun _ => none) (fun x => x)

/-- A concrete image-trial record without mouse data (export scenario). -/
def plainTrialRecord : JSRecord :=
  recordTrialData ⟨0, some 1, some 1, some "image", 0⟩
    (ImageTrialSel.toImageData ⟨"d1", "t1", "p1", "f1",
      "top-left", "top-right", "bottom-left", "bottom-right"⟩)
    [] 0 "start" "ts" 800 600 true (fun _ => none) (fun x => x)

/-- A sample with zero velocity (mouse-export scenario). -/
def zeroVelocityPoint : MousePoint :=
  ⟨some (.finite 3), some (.finite 4), none, none, some (.finite 0), none⟩

/-- The mouse record produced for `zeroVelocityPoint`. -/
def zeroVelocityRecord : JSRecord :=
  (recordMouseData 800 600 [some zeroVelocityPoint] 0 "image" 1 1 0).headD []

/-!
## Theorems
-/

theorem getD_set_cons_perm [Inhabited α] (a : α) :
    ∀ (l : List α) (k : Nat), k < l.length → (l.getD k default :: l.set k a).Perm (a :: l)
  | b :: t, 0, _ => by
      simpa using List.Perm.swap a b t
  | b :: t, k + 1, hk => by
      have ht : k < t.length := Nat.lt_of_succ_lt_succ (by simpa using hk)
      have ih := getD_set_cons_perm a t k ht
      have h1 : (b :: t).getD (k + 1) default :: (b :: t).set (k + 1) a
          = t.getD k default :: b :: t.set k a := by simp [List.getD]
      rw [h1]
      exact (List.Perm.swap b (t.getD k default) (t.set k a)).trans
        ((ih.cons b).trans (List.Perm.swap a b t))

theorem swapIdx_perm [Inhabited α] :
    ∀ (l : List α) (i j : Nat), i < l.length → j < l.length → (swapIdx l i j).Perm l
  | _ :: _, 0, 0, _, _ => by simp [swapIdx]
  | b :: t, 0, k + 1, _, hj => by
      have hk : k < t.length := Nat.lt_of_succ_lt_succ (by simpa using hj)
      simpa [swapIdx, List.getD] using getD_set_cons_perm b t k hk
  | b :: t, m + 1, 0, hi, _ => by
      have hm : m < t.length := Nat.lt_of_succ_lt_succ (by simpa using hi)
      simpa [swapIdx, List.getD] using getD_set_cons_perm b t m hm
  | b :: t, m + 1, k + 1, hi, hj => by
      have hm : m < t.length := Nat.lt_of_succ_lt_succ (by simpa using hi)
      have hk : k < t.length := Nat.lt_of_succ_lt_succ (by simpa using hj)
      simpa [swapIdx, List.getD] using (swapIdx_perm t m k hm hk).cons b

theorem shuffleAux_perm [Inhabited α] (rand : Nat → Nat) :
    ∀ (k : Nat) (l : List α), k < l.length → (shuffleAux rand k l).Perm l
  | 0, _, _ => List.Perm.refl _
  | k + 1, l, hk => by
      have hj : rand (k + 1) % (k + 2) < l.length :=
        Nat.lt_of_lt_of_le (Nat.mod_lt _ (Nat.succ_pos _)) (by omega)
      have hswap := swapIdx_perm l (k + 1) (rand (k + 1) % (k + 2)) hk hj
      have hlen : (swapIdx l (k + 1) (rand (k + 1) % (k + 2))).length = l.length := by
        simp [swapIdx]
      have ih := shuffleAux_perm rand k (swapIdx l (k + 1) (rand (k + 1) % (k + 2)))
        (by rw [hlen]; omega)
      exact ih.trans hswap

theorem shuffleArray_perm [Inhabited α] (rand : Nat → Nat) (l : List α) :
    (shuffleArray rand l).Perm l := by
  cases l with
  | nil => simp [shuffleArray, shuffleAux]
  | cons a t =>
      exact shuffleAux_perm rand ((a :: t).length - 1) (a :: t) (by simp)

theorem shuffleArray_length [Inhabited α] (rand : Nat → Nat) (l : List α) :
    (shuffleArray rand l).length = l.length :=
  (shuffleArray_perm rand l).length_eq

/-!
### Basic lemmas about the pool operations
-/
theorem head?_mem {α} {l : List α} {a : α} (h : l.head? = some a) : a ∈ l := by
  cases l <;> simp_all

theorem mem_availNotUsed {pool used : List String} {x : String}
    (h : x ∈ availNotUsed pool used) : x ∈ pool ∧ imgPath x ∉ used := by
  unfold availNotUsed at h
  have h' := List.mem_filter.1 h
  refine ⟨h'.1, ?_⟩
  simpa using h'.2

theorem availNotUsed_nodup {pool used : List String} (h : pool.Nodup) :
    (availNotUsed pool used).Nodup := h.filter _

theorem removeImg_nodup {pool : List String} {img : String} (h : pool.Nodup) :
    (removeImg pool img).Nodup := h.filter _

theorem subset_addUsed (u : List String) (p : String) : u ⊆ addUsed u p := by
  unfold addUsed
  split
  · exact fun x hx => hx
  · exact fun x hx => List.mem_append_left _ hx

theorem mem_addUsed_self (u : List String) (p : String) : p ∈ addUsed u p := by
  unfold addUsed
  split
  · next h => simpa using h
  · simp

theorem allocOne_some {pool used : List String} {i : String}
    {p' u' : List String} (h : allocOne pool used = some (i, p', u')) :
    i ∈ availNotUsed pool used ∧ p' = removeImg pool i ∧
      u' = addUsed used (imgPath i) := by
  unfold allocOne at h
  cases hh : (availNotUsed pool used).head? with
  | none => rw [hh] at h; simp at h
  | some img =>
      rw [hh] at h
      simp only [Option.some.injEq, Prod.mk.injEq] at h
      obtain ⟨rfl, h2, h3⟩ := h
      exact ⟨head?_mem hh, h2.symm, h3.symm⟩

/-- The elements of a 4-element list, enumerated by `getD`. -/
theorem list_four_getD {α} (l : List α) (d : α) (h : l.length = 4) :
    [l.getD 0 d, l.getD 1 d, l.getD 2 d, l.getD 3 d] = l := by
  rcases l with _ | ⟨a, _ | ⟨b, _ | ⟨c, _ | ⟨e, rest⟩⟩⟩⟩ <;> simp_all [List.getD]

/-!
### Inversion of `selectImagesForImageTrial`
-/
/-- Everything the success case of `selectImagesForImageTrial` guarantees:
the four selected images are pairwise distinct, each was unused before the
call and is marked used after it, the shrunken filler pool is a filter of the
old one, and the four positions enumerate the shuffled position list. -/
theorem imageSel_some_spec {rand : Nat → Nat} {s : PoolState}
    {sel : ImageTrialSel} {s' : PoolState}
    (h : selectImagesForImageTrial rand s = (some sel, s')) :
    ([sel.dysphoric, sel.threat, sel.positive, sel.filler].Nodup ∧
      ∀ i ∈ [sel.dysphoric, sel.threat, sel.positive, sel.filler],
        imgPath i ∉ s.used ∧ imgPath i ∈ s'.used) ∧
    s'.filler = removeImg s.filler sel.filler ∧ s.used ⊆ s'.used ∧
    [sel.posDysphoric, sel.posThreat, sel.posPositive, sel.posFiller] =
      shuffleArray rand positionNames := by
  rw [selectImagesForImageTrial] at h
  split at h
  · simp at h
  rename_i d dPool u1 h1
  split at h
  · simp at h
  rename_i t tPool u2 h2
  split at h
  · simp at h
  rename_i p pPool u3 h3
  split at h
  · simp at h
  rename_i f fPool u4 h4
  simp only [Prod.mk.injEq, Option.some.injEq] at h
  obtain ⟨hsel, rfl⟩ := h
  subst hsel
  obtain ⟨hdm, -, hu1⟩ := allocOne_some h1
  obtain ⟨htm, -, hu2⟩ := allocOne_some h2
  obtain ⟨hpm, -, hu3⟩ := allocOne_some h3
  obtain ⟨hfm, hfp, hu4⟩ := allocOne_some h4
  subst hu1 hu2 hu3 hu4
  have hd := mem_availNotUsed hdm
  have ht := mem_availNotUsed htm
  have hp := mem_availNotUsed hpm
  have hf := mem_availNotUsed hfm
  -- membership chains through the used-set updates
  have m01 : s.used ⊆ addUsed s.used (imgPath d) := subset_addUsed _ _
  have m12 : addUsed s.used (imgPath d) ⊆
      addUsed (addUsed s.used (imgPath d)) (imgPath t) := subset_addUsed _ _
  have m23 : addUsed (addUsed s.used (imgPath d)) (imgPath t) ⊆
      addUsed (addUsed (addUsed s.used (imgPath d)) (imgPath t)) (imgPath p) :=
    subset_addUsed _ _
  have m34 : addUsed (addUsed (addUsed s.used (imgPath d)) (imgPath t)) (imgPath p) ⊆
      addUsed (addUsed (addUsed (addUsed s.used (imgPath d)) (imgPath t)) (imgPath p))
        (imgPath f) := subset_addUsed _ _
  have din : imgPath d ∈ addUsed s.used (imgPath d) := mem_addUsed_self _ _
  have tin : imgPath t ∈ addUsed (addUsed s.used (imgPath d)) (imgPath t) :=
    mem_addUsed_self _ _
  have pin : imgPath p ∈
      addUsed (addUsed (addUsed s.used (imgPath d)) (imgPath t)) (imgPath p) :=
    mem_addUsed_self _ _
  have fin' : imgPath f ∈
      addUsed (addUsed (addUsed (addUsed s.used (imgPath d)) (imgPath t)) (imgPath p))
        (imgPath f) := mem_addUsed_self _ _
  refine ⟨⟨?_, ?_⟩, by simp [hfp], m01.trans (m12.trans (m23.trans m34)), ?_⟩
  · -- pairwise distinct: a shared identifier would be both in and out of a used set
    have hdt : d ≠ t := fun he => ht.2 (he ▸ din)
    have hdp : d ≠ p := fun he => hp.2 (he ▸ m12 din)
    have hdf : d ≠ f := fun he => hf.2 (he ▸ m23 (m12 din))
    have htp : t ≠ p := fun he => hp.2 (he ▸ tin)
    have htf : t ≠ f := fun he => hf.2 (he ▸ m23 tin)
    have hpf : p ≠ f := fun he => hf.2 (he ▸ pin)
    simp [hdt, hdp, hdf, htp, htf, hpf]
  · intro i hi
    simp only [List.mem_cons, List.not_mem_nil, or_false] at hi
    rcases hi with rfl | rfl | rfl | rfl
    · exact ⟨hd.2, m34 (m23 (m12 din))⟩
    · exact ⟨fun hc => ht.2 (m01 hc), m34 (m23 tin)⟩
    · exact ⟨fun hc => hp.2 (m12 (m01 hc)), m34 pin⟩
    · exact ⟨fun hc => hf.2 (m23 (m12 (m01 hc))), fin'⟩
  · have hlen : (shuffleArray rand positionNames).length = 4 := by
      rw [shuffleArray_length]; rfl
    simpa [List.getD] using list_four_getD (shuffleArray rand positionNames) "" hlen

/-- A failed `selectImagesForImageTrial` whose dysphoric pool is already
exhausted mutates nothing. -/
theorem imageSel_dysphoric_exhausted {rand : Nat → Nat} {s : PoolState}
    (h : allocOne s.dysphoric s.used = none) :
    selectImagesForImageTrial rand s = (none, s) := by
  rw [selectImagesForImageTrial, h]

/-- The function `selectImagesForImageTrial` only ever grows the used set, in every branch,
including the failing ones. -/
theorem imageSel_used_mono {rand : Nat → Nat} {s : PoolState}
    {res : Option ImageTrialSel} {s' : PoolState}
    (h : selectImagesForImageTrial rand s = (res, s')) : s.used ⊆ s'.used := by
  rw [selectImagesForImageTrial] at h
  split at h
  · rw [Prod.mk.injEq] at h; obtain ⟨rfl, rfl⟩ := h; exact fun x hx => hx
  rename_i d dPool u1 h1
  have m1 : s.used ⊆ u1 := by
    obtain ⟨-, -, hu⟩ := allocOne_some h1; subst hu; exact subset_addUsed _ _
  split at h
  · rw [Prod.mk.injEq] at h; obtain ⟨rfl, rfl⟩ := h; exact m1
  rename_i t tPool u2 h2
  have m2 : u1 ⊆ u2 := by
    obtain ⟨-, -, hu⟩ := allocOne_some h2; subst hu; exact subset_addUsed _ _
  split at h
  · rw [Prod.mk.injEq] at h; obtain ⟨rfl, rfl⟩ := h
    exact fun x hx => m2 (m1 hx)
  rename_i p pPool u3 h3
  have m3 : u2 ⊆ u3 := by
    obtain ⟨-, -, hu⟩ := allocOne_some h3; subst hu; exact subset_addUsed _ _
  split at h
  · rw [Prod.mk.injEq] at h; obtain ⟨rfl, rfl⟩ := h
    exact fun x hx => m3 (m2 (m1 hx))
  rename_i f fPool u4 h4
  have m4 : u3 ⊆ u4 := by
    obtain ⟨-, -, hu⟩ := allocOne_some h4; subst hu; exact subset_addUsed _ _
  rw [Prod.mk.injEq] at h
  obtain ⟨rfl, rfl⟩ := h
  exact fun x hx => m4 (m3 (m2 (m1 hx)))

/-- The function `selectImagesForImageTrial` leaves the filler pool intact or filters it,
so it preserves its freedom from duplicates, in every branch. -/
theorem imageSel_filler_nodup {rand : Nat → Nat} {s : PoolState}
    {res : Option ImageTrialSel} {s' : PoolState}
    (h : selectImagesForImageTrial rand s = (res, s'))
    (hnd : s.filler.Nodup) : s'.filler.Nodup := by
  rw [selectImagesForImageTrial] at h
  split at h
  · rw [Prod.mk.injEq] at h; obtain ⟨rfl, rfl⟩ := h; exact hnd
  rename_i d dPool u1 h1
  split at h
  · rw [Prod.mk.injEq] at h; obtain ⟨rfl, rfl⟩ := h; exact hnd
  rename_i t tPool u2 h2
  split at h
  · rw [Prod.mk.injEq] at h; obtain ⟨rfl, rfl⟩ := h; exact hnd
  rename_i p pPool u3 h3
  split at h
  · rw [Prod.mk.injEq] at h; obtain ⟨rfl, rfl⟩ := h; exact hnd
  rename_i f fPool u4 h4
  obtain ⟨-, hp, -⟩ := allocOne_some h4
  rw [Prod.mk.injEq] at h
  obtain ⟨rfl, rfl⟩ := h
  subst hp
  exact removeImg_nodup hnd

/-!
### Inversion of `selectImagesForFillerTrial`
-/
/-- A failed `selectImagesForFillerTrial` mutates nothing: the capacity check
`availableFillerPool.length < 4` precedes every mutation. -/
theorem fillerSel_none_unchanged {rand : Nat → Nat} {s : PoolState}
    {s' : PoolState} (h : selectImagesForFillerTrial rand s = (none, s')) :
    s' = s := by
  rw [selectImagesForFillerTrial] at h
  split at h
  · rw [Prod.mk.injEq] at h
    exact h.2.symm
  · simp at h

/-- The first four `getD` entries of a duplicate-free list of length `≥ 4`
are pairwise distinct. -/
theorem nodup_getD_four {α} [DecidableEq α] (l : List α) (d : α)
    (hnd : l.Nodup) (hlen : 4 ≤ l.length) :
    [l.getD 0 d, l.getD 1 d, l.getD 2 d, l.getD 3 d].Nodup := by
  rcases l with _ | ⟨a, _ | ⟨b, _ | ⟨c, _ | ⟨e, rest⟩⟩⟩⟩ <;> simp_all [List.getD]

/-- In-bounds `getD` values are members of the list. -/
theorem getD_mem {α} {l : List α} {n : Nat} (d : α) (hn : n < l.length) :
    l.getD n d ∈ l := by
  rw [List.getD_eq_getElem _ _ hn]
  exact List.getElem_mem hn

/-- Everything the success case of `selectImagesForFillerTrial` guarantees. -/
theorem fillerSel_some_spec {rand : Nat → Nat} {s : PoolState}
    {sel : FillerTrialSel} {s' : PoolState}
    (h : selectImagesForFillerTrial rand s = (some sel, s'))
    (hnd : s.filler.Nodup) :
    ([sel.filler1, sel.filler2, sel.filler3, sel.filler4].Nodup ∧
      ∀ i ∈ [sel.filler1, sel.filler2, sel.filler3, sel.filler4],
        imgPath i ∉ s.used ∧ imgPath i ∈ s'.used) ∧
    s'.filler.Nodup ∧ s.used ⊆ s'.used ∧
    [sel.pos1, sel.pos2, sel.pos3, sel.pos4] = shuffleArray rand positionNames := by
  rw [selectImagesForFillerTrial] at h
  split at h
  · simp at h
  rename_i hlen
  rw [Prod.mk.injEq] at h
  obtain ⟨hsel, rfl⟩ := h
  rw [Option.some.injEq] at hsel
  subst hsel
  push_neg at hlen
  have hav : (availNotUsed s.filler s.used).Nodup := availNotUsed_nodup hnd
  have h0 : 0 < (availNotUsed s.filler s.used).length := by omega
  have h1 : 1 < (availNotUsed s.filler s.used).length := by omega
  have h2 : 2 < (availNotUsed s.filler s.used).length := by omega
  have h3 : 3 < (availNotUsed s.filler s.used).length := by omega
  have q0 := mem_availNotUsed (getD_mem "" h0)
  have q1 := mem_availNotUsed (getD_mem "" h1)
  have q2 := mem_availNotUsed (getD_mem "" h2)
  have q3 := mem_availNotUsed (getD_mem "" h3)
  refine ⟨⟨?_, ?_⟩, ?_, ?_, ?_⟩
  · simpa [List.getD_eq_getElem?_getD] using
      nodup_getD_four (availNotUsed s.filler s.used) "" hav hlen
  · intro i hi
    simp only [List.mem_cons, List.not_mem_nil, or_false] at hi
    rcases hi with rfl | rfl | rfl | rfl
    · exact ⟨q0.2, subset_addUsed _ _ (subset_addUsed _ _ (subset_addUsed _ _
        (mem_addUsed_self _ _)))⟩
    · exact ⟨q1.2, subset_addUsed _ _ (subset_addUsed _ _ (mem_addUsed_self _ _))⟩
    · exact ⟨q2.2, subset_addUsed _ _ (mem_addUsed_self _ _)⟩
    · exact ⟨q3.2, mem_addUsed_self _ _⟩
  · exact removeImg_nodup (removeImg_nodup (removeImg_nodup (removeImg_nodup hnd)))
  · exact ((subset_addUsed _ _).trans ((subset_addUsed _ _).trans
      ((subset_addUsed _ _).trans (subset_addUsed _ _))))
  · have hlen4 : (shuffleArray rand positionNames).length = 4 := by
      rw [shuffleArray_length]; rfl
    simpa [List.getD_eq_getElem?_getD] using
      list_four_getD (shuffleArray rand positionNames) "" hlen4

/-- The used set only grows through `selectImagesForFillerTrial`, including
the failing branch. -/
theorem fillerSel_used_mono {rand : Nat → Nat} {s : PoolState}
    {res : Option FillerTrialSel} {s' : PoolState}
    (h : selectImagesForFillerTrial rand s = (res, s')) : s.used ⊆ s'.used := by
  rw [selectImagesForFillerTrial] at h
  split at h
  · rw [Prod.mk.injEq] at h
    obtain ⟨-, rfl⟩ := h
    exact fun x hx => hx
  · rw [Prod.mk.injEq] at h
    obtain ⟨-, rfl⟩ := h
    exact ((subset_addUsed _ _).trans ((subset_addUsed _ _).trans
      ((subset_addUsed _ _).trans (subset_addUsed _ _))))

/-- The function `selectImagesForFillerTrial` preserves a duplicate-free filler pool. -/
theorem fillerSel_filler_nodup {rand : Nat → Nat} {s : PoolState}
    {res : Option FillerTrialSel} {s' : PoolState}
    (h : selectImagesForFillerTrial rand s = (res, s'))
    (hnd : s.filler.Nodup) : s'.filler.Nodup := by
  rw [selectImagesForFillerTrial] at h
  split at h
  · rw [Prod.mk.injEq] at h
    obtain ⟨-, rfl⟩ := h
    exact hnd
  · rw [Prod.mk.injEq] at h
    obtain ⟨-, rfl⟩ := h
    exact removeImg_nodup (removeImg_nodup (removeImg_nodup (removeImg_nodup hnd)))

/-!
### The dispatch `selectImagesForTrial` and call sequences
-/
theorem select_used_mono {tt : TrialType} {rand : Nat → Nat} {s : PoolState}
    {res : Option TrialSel} {s' : PoolState}
    (h : selectImagesForTrial tt rand s = (res, s')) : s.used ⊆ s'.used := by
  cases tt <;> simp only [selectImagesForTrial] at h <;>
    rw [Prod.mk.injEq] at h <;> obtain ⟨-, rfl⟩ := h
  · exact imageSel_used_mono rfl
  · exact fillerSel_used_mono rfl

theorem select_filler_nodup {tt : TrialType} {rand : Nat → Nat} {s : PoolState}
    {res : Option TrialSel} {s' : PoolState}
    (h : selectImagesForTrial tt rand s = (res, s'))
    (hnd : s.filler.Nodup) : s'.filler.Nodup := by
  cases tt <;> simp only [selectImagesForTrial] at h <;>
    rw [Prod.mk.injEq] at h <;> obtain ⟨-, rfl⟩ := h
  · exact imageSel_filler_nodup rfl hnd
  · exact fillerSel_filler_nodup rfl hnd

theorem select_some_spec {tt : TrialType} {rand : Nat → Nat} {s : PoolState}
    {sel : TrialSel} {s' : PoolState}
    (h : selectImagesForTrial tt rand s = (some sel, s'))
    (hnd : s.filler.Nodup) :
    (sel.images.Nodup ∧
      ∀ i ∈ sel.images, imgPath i ∉ s.used ∧ imgPath i ∈ s'.used) ∧
    sel.positions = shuffleArray rand positionNames := by
  cases tt
  · simp only [selectImagesForTrial] at h
    rw [Prod.mk.injEq] at h
    obtain ⟨hmap, rfl⟩ := h
    rcases hres : (selectImagesForImageTrial rand s).1 with _ | isel <;>
      rw [hres] at hmap
    · simp at hmap
    rw [Option.map_some', Option.some.injEq] at hmap
    obtain rfl := hmap.symm
    have hfull : selectImagesForImageTrial rand s =
        (some isel, (selectImagesForImageTrial rand s).2) := by rw [← hres]
    obtain ⟨⟨hnodup, hmem⟩, -, -, hpos⟩ := imageSel_some_spec hfull
    exact ⟨⟨by simpa [TrialSel.images] using hnodup,
      by simpa [TrialSel.images] using hmem⟩,
      by simpa [TrialSel.positions] using hpos⟩
  · simp only [selectImagesForTrial] at h
    rw [Prod.mk.injEq] at h
    obtain ⟨hmap, rfl⟩ := h
    rcases hres : (selectImagesForFillerTrial rand s).1 with _ | fsel <;>
      rw [hres] at hmap
    · simp at hmap
    rw [Option.map_some', Option.some.injEq] at hmap
    obtain rfl := hmap.symm
    have hfull : selectImagesForFillerTrial rand s =
        (some fsel, (selectImagesForFillerTrial rand s).2) := by rw [← hres]
    obtain ⟨⟨hnodup, hmem⟩, -, -, hpos⟩ := fillerSel_some_spec hfull hnd
    exact ⟨⟨by simpa [TrialSel.images] using hnodup,
      by simpa [TrialSel.images] using hmem⟩,
      by simpa [TrialSel.positions] using hpos⟩

/-- No image selected anywhere along a call sequence was in the used set the
sequence started from. -/
theorem runTrials_fresh :
    ∀ (calls : List (TrialType × (Nat → Nat))) (s : PoolState),
      s.filler.Nodup → ∀ img,
        img ∈ ((runTrials calls s).1.map TrialSel.images).flatten →
        imgPath img ∉ s.used
  | [], s, _, img, hmem => by simp [runTrials] at hmem
  | (tt, r) :: rest, s, hnd, img, hmem => by
      rcases hsel : (selectImagesForTrial tt r s).1 with _ | sel <;>
        rw [runTrials] at hmem <;> rw [hsel] at hmem
      · have hnd' : (selectImagesForTrial tt r s).2.filler.Nodup :=
          select_filler_nodup rfl hnd
        have hmono : s.used ⊆ (selectImagesForTrial tt r s).2.used :=
          select_used_mono rfl
        intro hc
        exact runTrials_fresh rest _ hnd' img hmem (hmono hc)
      · simp only [List.map_cons, List.flatten] at hmem
        rcases List.mem_append.1 hmem with hin | hin
        · have hfull : selectImagesForTrial tt r s =
              (some sel, (selectImagesForTrial tt r s).2) := by rw [← hsel]
          exact ((select_some_spec hfull hnd).1.2 img hin).1
        · have hnd' : (selectImagesForTrial tt r s).2.filler.Nodup :=
            select_filler_nodup rfl hnd
          have hmono : s.used ⊆ (selectImagesForTrial tt r s).2.used :=
            select_used_mono rfl
          intro hc
          exact runTrials_fresh rest _ hnd' img hin (hmono hc)

/-- Core uniqueness invariant: along any call sequence, the selected images,
pooled over all successful trials, contain no duplicate identifier. -/
theorem runTrials_join_nodup :
    ∀ (calls : List (TrialType × (Nat → Nat))) (s : PoolState),
      s.filler.Nodup → ((runTrials calls s).1.map TrialSel.images).flatten.Nodup
  | [], s, _ => by simp [runTrials]
  | (tt, r) :: rest, s, hnd => by
      have hnd' : (selectImagesForTrial tt r s).2.filler.Nodup :=
        select_filler_nodup rfl hnd
      rcases hsel : (selectImagesForTrial tt r s).1 with _ | sel <;>
        rw [runTrials] <;> rw [hsel]
      · exact runTrials_join_nodup rest _ hnd'
      · simp only [List.map_cons, List.flatten]
        have hfull : selectImagesForTrial tt r s =
            (some sel, (selectImagesForTrial tt r s).2) := by rw [← hsel]
        obtain ⟨⟨hnodup, hmem⟩, -⟩ := select_some_spec hfull hnd
        refine hnodup.append (runTrials_join_nodup rest _ hnd') ?_
        intro img hin1 hin2
        exact runTrials_fresh rest _ hnd' img hin2 (hmem img hin1).2

theorem runRoundLoop_running :
    ∀ (n : Nat) (s : CtrlState), s.isExperimentRunning = true →
      runRoundLoop n s =
        { s with roundTrialCounter := s.roundTrialCounter + n,
                 globalTrialCounter := s.globalTrialCounter + n }
  | 0, s, h => by simp [runRoundLoop]
  | n + 1, s, h => by
      rw [runRoundLoop, if_pos h,
        runRoundLoop_running n
          { s with roundTrialCounter := s.roundTrialCounter + 1,
                   globalTrialCounter := s.globalTrialCounter + 1 } h]
      simp only [CtrlState.mk.injEq, and_true, true_and]
      omega

/-!
## Remaining helper lemmas for the claims
-/
theorem fillerSel_some_positions {rand : Nat → Nat} {s : PoolState}
    {sel : FillerTrialSel} {s' : PoolState}
    (h : selectImagesForFillerTrial rand s = (some sel, s')) :
    [sel.pos1, sel.pos2, sel.pos3, sel.pos4] = shuffleArray rand positionNames := by
  rw [selectImagesForFillerTrial] at h
  split at h
  · simp at h
  rw [Prod.mk.injEq] at h
  obtain ⟨hsel, -⟩ := h
  rw [Option.some.injEq] at hsel
  subst hsel
  have hlen4 : (shuffleArray rand positionNames).length = 4 := by
    rw [shuffleArray_length]; rfl
  simpa [List.getD_eq_getElem?_getD] using
    list_four_getD (shuffleArray rand positionNames) "" hlen4

theorem runRoundLoop_stopped :
    ∀ (n : Nat) (s : CtrlState), s.isExperimentRunning = false →
      runRoundLoop n s = s
  | 0, _, _ => rfl
  | n + 1, s, h => by rw [runRoundLoop, if_neg (by simp [h])]

/-!
## The claims
-/
/-- C1: an image identifier, once allocated to any trial (image or filler,
in any category), is never allocated to a later trial of the same session:
any sequence of `selectImagesForTrial` calls threading one pool state and
used-image set yields selections whose pooled image list has no duplicate —
pairwise-disjoint across trials and across categories (the hypothesis is the
catalog invariant that the filler inventory lists each identifier once). -/
theorem C1_global_image_uniqueness (calls : List (TrialType × (Nat → Nat)))
    (s : PoolState) (hnd : s.filler.Nodup) :
    ((runTrials calls s).1.map TrialSel.images).flatten.Nodup :=
  runTrials_join_nodup calls s hnd

theorem C1_global_image_uniqueness_witness :
    ((⟨["d1"], ["t1"], ["p1"], ["f1", "f2", "f3", "f4", "f5"],
        []⟩ : PoolState)).filler.Nodup ∧
    ((runTrials [(TrialType.image, fun _ => 0), (TrialType.filler, fun _ => 0)]
        ⟨["d1"], ["t1"], ["p1"], ["f1", "f2", "f3", "f4", "f5"], []⟩).1.map
      TrialSel.images).flatten.Nodup :=
  ⟨by decide, C1_global_image_uniqueness _ _ (by decide)⟩

/-- C2 (counterexample): a failed image-trial allocation does *not* leave
the pool unchanged.  With one dysphoric image, no threat images, one positive
and one filler image, the call throws on the threat category but has already
consumed the dysphoric image: the dysphoric pool shrank and the used set
grew. -/
theorem C2_counterexample_partial_mutation :
    (selectImagesForImageTrial (fun _ => 0) ⟨["d1"], [], ["p1"], ["f1"], []⟩).1
        = none ∧
    (selectImagesForImageTrial (fun _ => 0) ⟨["d1"], [], ["p1"], ["f1"], []⟩).2
        ≠ ⟨["d1"], [], ["p1"], ["f1"], []⟩ := by
  constructor
  · decide
  · decide

/-- C2 (amended): a failed *filler*-trial allocation leaves the pool state
unchanged (its capacity check precedes every mutation), and a failed
image-trial allocation leaves the state unchanged when the *first* category
(dysphoric) is the one exhausted; a failure on a later category retains the
mutations of the earlier categories (see the counterexample). -/
theorem C2_failed_allocation_state :
    (∀ (rand : Nat → Nat) (s s' : PoolState),
        selectImagesForFillerTrial rand s = (none, s') → s' = s) ∧
    (∀ (rand : Nat → Nat) (s : PoolState),
        allocOne s.dysphoric s.used = none →
        selectImagesForImageTrial rand s = (none, s)) :=
  ⟨fun _ _ _ h => fillerSel_none_unchanged h,
    fun _ _ h => imageSel_dysphoric_exhausted h⟩

theorem C2_failed_allocation_state_witness :
    (selectImagesForFillerTrial (fun _ => 0) ⟨[], [], [], ["f1"], []⟩).2 =
      (⟨[], [], [], ["f1"], []⟩ : PoolState) ∧
    selectImagesForImageTrial (fun _ => 0) ⟨[], ["t1"], [], [], []⟩ =
      (none, (⟨[], ["t1"], [], [], []⟩ : PoolState)) := by
  constructor
  · exact C2_failed_allocation_state.1 (fun _ => 0) _ _ (by decide)
  · exact C2_failed_allocation_state.2 (fun _ => 0) _ (by decide)

/-- C7: for every outcome of the shuffle, the generated trial-type
pattern has length 20 with exactly 12 `image` and 8 `filler` entries. -/
theorem C7_pattern_counts (rand : Nat → Nat) :
    (generateTrialPattern rand).length = 20 ∧
    (generateTrialPattern rand).count TrialType.image = 12 ∧
    (generateTrialPattern rand).count TrialType.filler = 8 := by
  have hperm := shuffleArray_perm rand
    (List.replicate imageTrialsPerRound TrialType.image ++
      List.replicate fillerTrialsPerRound TrialType.filler)
  refine ⟨?_, ?_, ?_⟩
  · rw [generateTrialPattern, hperm.length_eq]; rfl
  · rw [generateTrialPattern, hperm.count_eq]; rfl
  · rw [generateTrialPattern, hperm.count_eq]; rfl

/-- C8: every successfully selected trial (image or filler), under every
outcome of the position shuffle, assigns its four images to the four quadrant
labels with each label used exactly once: the assigned positions are a
permutation of `positionNames`. -/
theorem C8_positions_permutation {tt : TrialType} {rand : Nat → Nat}
    {s : PoolState} {sel : TrialSel} {s' : PoolState}
    (h : selectImagesForTrial tt rand s = (some sel, s')) :
    sel.positions.Perm positionNames := by
  have hpos : sel.positions = shuffleArray rand positionNames := by
    cases tt
    · simp only [selectImagesForTrial] at h
      rw [Prod.mk.injEq] at h
      obtain ⟨hmap, -⟩ := h
      rcases hres : (selectImagesForImageTrial rand s).1 with _ | isel <;>
        rw [hres] at hmap
      · simp at hmap
      rw [Option.map_some', Option.some.injEq] at hmap
      obtain rfl := hmap.symm
      have hfull : selectImagesForImageTrial rand s =
          (some isel, (selectImagesForImageTrial rand s).2) := by rw [← hres]
      simpa [TrialSel.positions] using (imageSel_some_spec hfull).2.2.2
    · simp only [selectImagesForTrial] at h
      rw [Prod.mk.injEq] at h
      obtain ⟨hmap, -⟩ := h
      rcases hres : (selectImagesForFillerTrial rand s).1 with _ | fsel <;>
        rw [hres] at hmap
      · simp at hmap
      rw [Option.map_some', Option.some.injEq] at hmap
      obtain rfl := hmap.symm
      have hfull : selectImagesForFillerTrial rand s =
          (some fsel, (selectImagesForFillerTrial rand s).2) := by rw [← hres]
      simpa [TrialSel.positions] using fillerSel_some_positions hfull
  rw [hpos]
  exact shuffleArray_perm rand positionNames

theorem C8_positions_permutation_witness :
    selectImagesForTrial TrialType.image (fun _ => 0)
        ⟨["d1"], ["t1"], ["p1"], ["f1", "f2", "f3", "f4"], []⟩ =
      (some (TrialSel.image ⟨"d1", "t1", "p1", "f1",
          "top-right", "bottom-left", "bottom-right", "top-left"⟩),
        ⟨[], [], [], ["f2", "f3", "f4"],
          ["images/d1", "images/t1", "images/p1", "images/f1"]⟩) ∧
    (TrialSel.image ⟨"d1", "t1", "p1", "f1",
        "top-right", "bottom-left", "bottom-right",
        "top-left"⟩).positions.Perm positionNames :=
  ⟨by decide,
    @C8_positions_permutation TrialType.image (fun _ => 0)
      ⟨["d1"], ["t1"], ["p1"], ["f1", "f2", "f3", "f4"], []⟩
      (TrialSel.image ⟨"d1", "t1", "p1", "f1",
        "top-right", "bottom-left", "bottom-right", "top-left"⟩)
      ⟨[], [], [], ["f2", "f3", "f4"],
        ["images/d1", "images/t1", "images/p1", "images/f1"]⟩
      (by decide)⟩

/-- C9: in a session of 3 rounds of 20 trials, the round-local counter is
reset to 0 at every round entry, both counters advance by exactly one per
loop iteration while the experiment is running (and not at all once it is
stopped), the global counter reaches 20 after round 1 and exactly 60 after
all three rounds. -/
theorem C9_trial_counters :
    (∀ (r : Nat) (s : CtrlState), (roundEntryState r s).roundTrialCounter = 0) ∧
    (∀ (n : Nat) (s : CtrlState),
      (runRoundLoop n s).globalTrialCounter =
          s.globalTrialCounter + (if s.isExperimentRunning then n else 0) ∧
        (runRoundLoop n s).roundTrialCounter =
          s.roundTrialCounter + (if s.isExperimentRunning then n else 0)) ∧
    (startRound 1 ctrlInit).globalTrialCounter = 20 ∧
    runSession.globalTrialCounter = 60 := by
  refine ⟨?_, ?_, by decide, by decide⟩
  · intro r s
    simp only [roundEntryState]
    split <;> rfl
  · intro n s
    cases hr : s.isExperimentRunning
    · rw [runRoundLoop_stopped n s hr]
      simp
    · rw [runRoundLoop_running n s hr]
      simp

/-!
## Quadrant-time fold lemmas
-/

theorem quadCountStep_split (w h : ℚ) (acc : QuadTimes Nat)
    (op : Option MousePoint) :
    quadCountStep w h acc op =
      { topLeft := acc.topLeft +
          (quadCountStep w h ⟨0, 0, 0, 0⟩ op).topLeft,
        topRight := acc.topRight +
          (quadCountStep w h ⟨0, 0, 0, 0⟩ op).topRight,
        bottomLeft := acc.bottomLeft +
          (quadCountStep w h ⟨0, 0, 0, 0⟩ op).bottomLeft,
        bottomRight := acc.bottomRight +
          (quadCountStep w h ⟨0, 0, 0, 0⟩ op).bottomRight } := by
  rcases op with _ | p
  · simp [quadCountStep]
  rcases hx : p.x with _ | px <;> rcases hy : p.y with _ | py <;>
    simp only [quadCountStep, hx, hy] <;> try simp
  split_ifs <;> simp

theorem quadAccrueStep_split (w h : ℚ) (acc : QuadTimes ℚ)
    (op : Option MousePoint) :
    quadAccrueStep w h acc op =
      { topLeft := acc.topLeft +
          timePerPoint * (quadCountStep w h ⟨0, 0, 0, 0⟩ op).topLeft,
        topRight := acc.topRight +
          timePerPoint * (quadCountStep w h ⟨0, 0, 0, 0⟩ op).topRight,
        bottomLeft := acc.bottomLeft +
          timePerPoint * (quadCountStep w h ⟨0, 0, 0, 0⟩ op).bottomLeft,
        bottomRight := acc.bottomRight +
          timePerPoint * (quadCountStep w h ⟨0, 0, 0, 0⟩ op).bottomRight } := by
  rcases op with _ | p
  · simp [quadAccrueStep, quadCountStep]
  rcases hx : p.x with _ | px <;> rcases hy : p.y with _ | py <;>
    simp only [quadAccrueStep, quadCountStep, hx, hy] <;> try simp
  split_ifs <;> simp

theorem quadCountFold_shift (w h : ℚ) :
    ∀ (l : List (Option MousePoint)) (acc : QuadTimes Nat),
      l.foldl (quadCountStep w h) acc =
        { topLeft := acc.topLeft + (quadCounts w h l).topLeft,
          topRight := acc.topRight + (quadCounts w h l).topRight,
          bottomLeft := acc.bottomLeft + (quadCounts w h l).bottomLeft,
          bottomRight := acc.bottomRight + (quadCounts w h l).bottomRight }
  | [], acc => by simp [quadCounts]
  | op :: l, acc => by
      have hstep := quadCountStep_split w h acc op
      have hzero := quadCountStep_split w h ⟨0, 0, 0, 0⟩ op
      have hcons : quadCounts w h (op :: l) =
          { topLeft := (quadCountStep w h ⟨0, 0, 0, 0⟩ op).topLeft +
              (quadCounts w h l).topLeft,
            topRight := (quadCountStep w h ⟨0, 0, 0, 0⟩ op).topRight +
              (quadCounts w h l).topRight,
            bottomLeft := (quadCountStep w h ⟨0, 0, 0, 0⟩ op).bottomLeft +
              (quadCounts w h l).bottomLeft,
            bottomRight := (quadCountStep w h ⟨0, 0, 0, 0⟩ op).bottomRight +
              (quadCounts w h l).bottomRight } := by
        show (op :: l).foldl (quadCountStep w h) ⟨0, 0, 0, 0⟩ = _
        rw [List.foldl_cons, quadCountFold_shift w h l (quadCountStep w h ⟨0, 0, 0, 0⟩ op)]
      rw [List.foldl_cons, quadCountFold_shift w h l (quadCountStep w h acc op), hstep,
        hcons]
      simp only [QuadTimes.mk.injEq]
      omega

theorem quadAccrueFold_shift (w h : ℚ) :
    ∀ (l : List (Option MousePoint)) (acc : QuadTimes ℚ),
      l.foldl (quadAccrueStep w h) acc =
        { topLeft := acc.topLeft + timePerPoint * (quadCounts w h l).topLeft,
          topRight := acc.topRight + timePerPoint * (quadCounts w h l).topRight,
          bottomLeft := acc.bottomLeft +
            timePerPoint * (quadCounts w h l).bottomLeft,
          bottomRight := acc.bottomRight +
            timePerPoint * (quadCounts w h l).bottomRight }
  | [], acc => by simp [quadCounts]
  | op :: l, acc => by
      have hstep := quadAccrueStep_split w h acc op
      have hcons : quadCounts w h (op :: l) =
          { topLeft := (quadCountStep w h ⟨0, 0, 0, 0⟩ op).topLeft +
              (quadCounts w h l).topLeft,
            topRight := (quadCountStep w h ⟨0, 0, 0, 0⟩ op).topRight +
              (quadCounts w h l).topRight,
            bottomLeft := (quadCountStep w h ⟨0, 0, 0, 0⟩ op).bottomLeft +
              (quadCounts w h l).bottomLeft,
            bottomRight := (quadCountStep w h ⟨0, 0, 0, 0⟩ op).bottomRight +
              (quadCounts w h l).bottomRight } := by
        show (op :: l).foldl (quadCountStep w h) ⟨0, 0, 0, 0⟩ = _
        rw [List.foldl_cons, quadCountFold_shift w h l (quadCountStep w h ⟨0, 0, 0, 0⟩ op)]
      rw [List.foldl_cons, quadAccrueFold_shift w h l (quadAccrueStep w h acc op), hstep,
        hcons]
      simp only [QuadTimes.mk.injEq, Nat.cast_add]
      refine ⟨by ring, by ring, by ring, by ring⟩

/-- Closed form: each quadrant's reported dwell time is
`Math.round(16.67 * number of retained samples in that quadrant)`. -/
theorem calculateQuadrantTimes_counts (w h : ℚ) (l : List (Option MousePoint)) :
    calculateQuadrantTimes w h l =
      { topLeft := jsRound (timePerPoint * (quadCounts w h l).topLeft),
        topRight := jsRound (timePerPoint * (quadCounts w h l).topRight),
        bottomLeft := jsRound (timePerPoint * (quadCounts w h l).bottomLeft),
        bottomRight := jsRound (timePerPoint * (quadCounts w h l).bottomRight) } := by
  rw [calculateQuadrantTimes]
  rw [quadAccrueFold_shift w h l ⟨0, 0, 0, 0⟩]
  simp

theorem quadAccrueStep_coords (w h : ℚ) (acc : QuadTimes ℚ)
    (op op' : Option MousePoint) (hc : sampleCoords op = sampleCoords op') :
    quadAccrueStep w h acc op = quadAccrueStep w h acc op' := by
  rcases op with _ | p <;> rcases op' with _ | p' <;>
    simp only [sampleCoords, Option.map_none', Option.map_some'] at hc
  · rfl
  · simp at hc
  · simp at hc
  · rw [Option.some.injEq, Prod.mk.injEq] at hc
    simp only [quadAccrueStep, hc.1, hc.2]

theorem quadFold_coords (w h : ℚ) :
    ∀ (l l' : List (Option MousePoint)) (acc : QuadTimes ℚ),
      l.map sampleCoords = l'.map sampleCoords →
      l.foldl (quadAccrueStep w h) acc = l'.foldl (quadAccrueStep w h) acc
  | [], [], _, _ => rfl
  | [], _ :: _, _, hc => by simp at hc
  | _ :: _, [], _, hc => by simp at hc
  | op :: l, op' :: l', acc, hc => by
      simp only [List.map_cons, List.cons.injEq] at hc
      rw [List.foldl_cons, List.foldl_cons,
        quadAccrueStep_coords w h acc op op' hc.1]
      exact quadFold_coords w h l l' _ hc.2

/-- C3 (amended): the per-quadrant dwell times accrue a *fixed* 16.67 ms
per retained sample to the quadrant containing that sample (boundary at
`(w/2, h/2)`), the totals being rounded to the nearest millisecond.  Sample
timestamps are never consulted: two streams with the same coordinates yield
identical dwell times whatever their timestamps, so no gap rule (negative or
`> 5000 ms` deltas) exists. -/
theorem C3_dwell_fixed_accrual_ignores_timestamps (w h : ℚ)
    (l : List (Option MousePoint)) :
    calculateQuadrantTimes w h l =
      { topLeft := jsRound (timePerPoint * (quadCounts w h l).topLeft),
        topRight := jsRound (timePerPoint * (quadCounts w h l).topRight),
        bottomLeft := jsRound (timePerPoint * (quadCounts w h l).bottomLeft),
        bottomRight :=
          jsRound (timePerPoint * (quadCounts w h l).bottomRight) } ∧
    ∀ l' : List (Option MousePoint),
      l.map sampleCoords = l'.map sampleCoords →
      calculateQuadrantTimes w h l = calculateQuadrantTimes w h l' := by
  refine ⟨calculateQuadrantTimes_counts w h l, fun l' hc => ?_⟩
  rw [calculateQuadrantTimes, calculateQuadrantTimes,
    quadFold_coords w h l l' _ hc]

theorem C3_dwell_fixed_accrual_ignores_timestamps_witness :
    ([some ⟨some (.finite 10), some (.finite 10), some (.finite 0),
        none, none, none⟩,
      some ⟨some (.finite 10), some (.finite 10), some (.finite 100),
        none, none, none⟩] : List (Option MousePoint)).map sampleCoords =
      ([some ⟨some (.finite 10), some (.finite 10), some (.finite 6000),
          none, none, none⟩,
        some ⟨some (.finite 10), some (.finite 10), some (.finite 7000),
          none, none, none⟩] : List (Option MousePoint)).map sampleCoords ∧
    calculateQuadrantTimes 800 600
        [some ⟨some (.finite 10), some (.finite 10), some (.finite 0),
          none, none, none⟩,
         some ⟨some (.finite 10), some (.finite 10), some (.finite 100),
          none, none, none⟩] =
      calculateQuadrantTimes 800 600
        [some ⟨some (.finite 10), some (.finite 10), some (.finite 6000),
          none, none, none⟩,
         some ⟨some (.finite 10), some (.finite 10), some (.finite 7000),
          none, none, none⟩] :=
  ⟨by simp [sampleCoords],
    (C3_dwell_fixed_accrual_ignores_timestamps 800 600 _).2 _
      (by simp [sampleCoords])⟩

/-- C3 (counterexample): the stream of two top-left samples at
timestamps 0 and 100 ms is reported by the code as 33 ms of top-left dwell
(2 samples × 16.67, rounded), where the spec's pair-delta rule gives 100 ms;
with timestamps 0 and 6000 ms (a `> 5000 ms` gap) the code still reports
33 ms where the spec's exclusion rule gives 0. -/
theorem C3_counterexample_delta_rule :
    (calculateQuadrantTimes 800 600
        [some ⟨some (.finite 10), some (.finite 10), some (.finite 0),
          none, none, none⟩,
         some ⟨some (.finite 10), some (.finite 10), some (.finite 100),
          none, none, none⟩]).topLeft = 33 ∧
    (specQuadrantTimes 800 600 [⟨10, 10, 0⟩, ⟨10, 10, 100⟩]
        ⟨0, 0, 0, 0⟩).topLeft = 100 ∧
    (calculateQuadrantTimes 800 600
        [some ⟨some (.finite 10), some (.finite 10), some (.finite 0),
          none, none, none⟩,
         some ⟨some (.finite 10), some (.finite 10), some (.finite 6000),
          none, none, none⟩]).topLeft = 33 ∧
    (specQuadrantTimes 800 600 [⟨10, 10, 0⟩, ⟨10, 10, 6000⟩]
        ⟨0, 0, 0, 0⟩).topLeft = 0 ∧
    (33 : Int) ≠ 100 ∧ (33 : ℚ) ≠ 0 := by
  refine ⟨?_, ?_, ?_, ?_, by norm_num, by norm_num⟩ <;>
    norm_num [calculateQuadrantTimes, quadAccrueStep, specQuadrantTimes,
      JSNum.ltQ, JSNum.geQ, timePerPoint, jsRound]

/-- C4 (counterexample): a sample exactly on the vertical center line
(`x = 800/2 = 400`) is classified `top-right`, not a left quadrant. -/
theorem C4_counterexample_center_goes_right :
    (400 : ℚ) = 800 / 2 ∧
    getQuadrant 800 600 (.finite 400) (.finite 100) = "top-right" ∧
    "top-right" ≠ "top-left" ∧ "top-right" ≠ "bottom-left" := by
  refine ⟨by norm_num, ?_, by decide, by decide⟩
  norm_num [getQuadrant, JSNum.ltQ, JSNum.geQ]

/-- C4 (amended): `x < centerX` decides left against right and
`y < centerY` top against bottom, so a sample exactly on the vertical center
line goes to a *right* quadrant and one exactly on the horizontal center
line goes to a *bottom* quadrant. -/
theorem C4_center_line_right_bottom (w h x y : ℚ) :
    (x = w / 2 →
      getQuadrant w h (.finite x) (.finite y) = "top-right" ∨
        getQuadrant w h (.finite x) (.finite y) = "bottom-right") ∧
    (y = h / 2 →
      getQuadrant w h (.finite x) (.finite y) = "bottom-left" ∨
        getQuadrant w h (.finite x) (.finite y) = "bottom-right") := by
  constructor
  · rintro rfl
    by_cases hy : y < h / 2
    · left
      simp [getQuadrant, JSNum.ltQ, JSNum.geQ, hy]
    · right
      simp [getQuadrant, JSNum.ltQ, JSNum.geQ, hy]
  · rintro rfl
    by_cases hx : x < w / 2
    · left
      simp [getQuadrant, JSNum.ltQ, JSNum.geQ, hx, lt_irrefl]
    · right
      simp [getQuadrant, JSNum.ltQ, JSNum.geQ, hx]

theorem C4_center_line_right_bottom_witness :
    ((400 : ℚ) = 800 / 2 ∧
      (getQuadrant 800 600 (.finite 400) (.finite 100) = "top-right" ∨
        getQuadrant 800 600 (.finite 400) (.finite 100) = "bottom-right")) ∧
    ((300 : ℚ) = 600 / 2 ∧
      (getQuadrant 800 600 (.finite 100) (.finite 300) = "bottom-left" ∨
        getQuadrant 800 600 (.finite 100) (.finite 300) = "bottom-right")) :=
  ⟨⟨by norm_num,
      (C4_center_line_right_bottom 800 600 400 100).1 (by norm_num)⟩,
    ⟨by norm_num,
      (C4_center_line_right_bottom 800 600 100 300).2 (by norm_num)⟩⟩

theorem validPoint_false_of_malformed (p : MousePoint)
    (hp : p.x = none ∨ p.x = some .nan ∨ p.y = none ∨ p.y = some .nan) :
    validPoint (some p) = false := by
  rcases hp with hx | hx | hy | hy
  · rcases hpy : p.y with _ | py <;> simp [validPoint, hx, hpy]
  · rcases hpy : p.y with _ | py <;> simp [validPoint, hx, hpy, JSNum.isNaNb]
  · rcases hpx : p.x with _ | px <;> simp [validPoint, hy, hpx]
  · rcases hpx : p.x with _ | px <;>
      simp [validPoint, hy, hpx, JSNum.isNaNb]

theorem quadCounts_append (w h : ℚ) (a b : List (Option MousePoint)) :
    quadCounts w h (a ++ b) =
      { topLeft := (quadCounts w h a).topLeft + (quadCounts w h b).topLeft,
        topRight := (quadCounts w h a).topRight + (quadCounts w h b).topRight,
        bottomLeft :=
          (quadCounts w h a).bottomLeft + (quadCounts w h b).bottomLeft,
        bottomRight :=
          (quadCounts w h a).bottomRight + (quadCounts w h b).bottomRight } := by
  rw [quadCounts, List.foldl_append]
  rw [show a.foldl (quadCountStep w h) ⟨0, 0, 0, 0⟩ = quadCounts w h a from rfl]
  rw [quadCountFold_shift w h b (quadCounts w h a)]

/-- C5 (counterexample): a sample whose `x` is `NaN` is *not* excluded
from the quadrant dwell aggregate — all four comparisons are false, so the
`else` branch books 16.67 ms (rounded to 17) of bottom-right dwell for it,
whereas exclusion would leave the aggregate at 0 as for the empty stream. -/
theorem C5_counterexample_nan_accrues_bottom_right :
    (calculateQuadrantTimes 800 600
        [some ⟨some .nan, some (.finite 10), none, none, none,
          none⟩]).bottomRight = 17 ∧
    (calculateQuadrantTimes 800 600
        ([] : List (Option MousePoint))).bottomRight = 0 ∧
    (17 : Int) ≠ 0 := by
  refine ⟨?_, ?_, by norm_num⟩ <;>
    norm_num [calculateQuadrantTimes, quadAccrueStep, JSNum.ltQ, JSNum.geQ,
      timePerPoint, jsRound]

/-- C5 (amended): a sample with a missing or `NaN` coordinate is excluded
from the average-position and movement-distance aggregates (it is dropped
from `validPoints`, the only input of both) and recording has no failure
path; but the quadrant dwell aggregate excludes only samples with a
*missing* coordinate — a sample with `x = NaN` is retained and accrues to
the bottom-right quadrant — and a sample with an infinite coordinate is not
excluded from anything (`isNaN(Infinity)` is false): it stays in
`validPoints`. -/
theorem C5_malformed_sample_handling (w h : ℚ) :
    (∀ (l1 l2 : List (Option MousePoint)) (p : MousePoint),
        p.x = none ∨ p.x = some .nan ∨ p.y = none ∨ p.y = some .nan →
        validPoints (l1 ++ some p :: l2) = validPoints (l1 ++ l2)) ∧
    (∀ (l1 l2 : List (Option MousePoint)) (p : MousePoint) (py : JSNum),
        p.x = some .nan → p.y = some py →
        quadCounts w h (l1 ++ some p :: l2) =
          { quadCounts w h (l1 ++ l2) with
              bottomRight := (quadCounts w h (l1 ++ l2)).bottomRight + 1 }) ∧
    (∀ (l1 l2 : List (Option MousePoint)) (p : MousePoint) (qy : ℚ),
        p.x = some .posInf → p.y = some (.finite qy) →
        validPoints (l1 ++ some p :: l2) =
          validPoints l1 ++ some p :: validPoints l2) := by
  refine ⟨?_, ?_, ?_⟩
  · intro l1 l2 p hp
    simp [validPoints, List.filter_append, validPoint_false_of_malformed p hp]
  · intro l1 l2 p py hx hy
    have hstep : quadCountStep w h ⟨0, 0, 0, 0⟩ (some p) = ⟨0, 0, 0, 1⟩ := by
      simp [quadCountStep, hx, hy, JSNum.ltQ, JSNum.geQ]
    have hcons : quadCounts w h (some p :: l2) =
        { quadCounts w h l2 with
            bottomRight := (quadCounts w h l2).bottomRight + 1 } := by
      show (some p :: l2).foldl (quadCountStep w h) ⟨0, 0, 0, 0⟩ = _
      rw [List.foldl_cons, hstep, quadCountFold_shift w h l2 ⟨0, 0, 0, 1⟩]
      rw [show ∀ c : QuadTimes Nat,
        ({ topLeft := 0 + c.topLeft, topRight := 0 + c.topRight,
           bottomLeft := 0 + c.bottomLeft, bottomRight := 1 + c.bottomRight } :
          QuadTimes Nat) =
        { c with bottomRight := c.bottomRight + 1 } from fun c => by
          simp [QuadTimes.mk.injEq]; omega]
    rw [quadCounts_append, quadCounts_append, hcons]
    simp [QuadTimes.mk.injEq]
    omega
  · intro l1 l2 p qy hx hy
    have hval : validPoint (some p) = true := by
      simp [validPoint, hx, hy, JSNum.isNaNb]
    simp [validPoints, List.filter_append, hval]

theorem C5_malformed_sample_handling_witness :
    ((⟨none, some (.finite 1), none, none, none, none⟩ : MousePoint).x = none ∨
      (⟨none, some (.finite 1), none, none, none, none⟩ : MousePoint).x =
        some .nan ∨
      (⟨none, some (.finite 1), none, none, none, none⟩ : MousePoint).y = none ∨
      (⟨none, some (.finite 1), none, none, none, none⟩ : MousePoint).y =
        some .nan) ∧
    validPoints
        ([] ++ some ⟨none, some (.finite 1), none, none, none, none⟩ ::
          [some ⟨some (.finite 2), some (.finite 3), none, none, none, none⟩]) =
      validPoints
        ([] ++ [some ⟨some (.finite 2), some (.finite 3), none, none, none,
          none⟩]) ∧
    quadCounts 800 600
        ([] ++ some ⟨some .nan, some (.finite 10), none, none, none, none⟩ ::
          ([] : List (Option MousePoint))) =
      { quadCounts 800 600 ([] ++ ([] : List (Option MousePoint))) with
          bottomRight :=
            (quadCounts 800 600
              ([] ++ ([] : List (Option MousePoint)))).bottomRight + 1 } ∧
    validPoints
        ([] ++ some ⟨some .posInf, some (.finite 5), none, none, none, none⟩ ::
          ([] : List (Option MousePoint))) =
      validPoints [] ++
        some ⟨some .posInf, some (.finite 5), none, none, none, none⟩ ::
          validPoints ([] : List (Option MousePoint)) :=
  ⟨Or.inl rfl,
    (C5_malformed_sample_handling 800 600).1 [] _ _ (Or.inl rfl),
    (C5_malformed_sample_handling 800 600).2.1 [] [] _ (.finite 10) rfl rfl,
    (C5_malformed_sample_handling 800 600).2.2 [] [] _ 5 rfl rfl⟩

theorem map_fst_setField (r : JSRecord) (k : String) (v : JSValue) :
    (setField r k v).map Prod.fst =
      if (r.map Prod.fst).contains k then r.map Prod.fst
      else r.map Prod.fst ++ [k] := by
  rw [setField]
  split
  · next hc =>
      rw [List.map_map]
      apply List.map_congr_left
      intro kv _
      simp only [Function.comp_apply, beq_iff_eq]
      by_cases hk : kv.1 = k
      · rw [if_pos hk]
        exact hk.symm
      · rw [if_neg hk]
  · next hc => simp

/-- Key set of an image-trial record: the base keys, the mouse-summary keys,
and (only when mouse data is present) the image-trial dwell keys. -/
theorem recordTrialData_keys_image (info : TrialInfo) (imageData : ImageData)
    (mouseData : List (Option MousePoint)) (duration : ℚ)
    (sIso tIso : String) (w h : ℚ) (cp : Bool)
    (bounds : String → Option Rect) (sqrtFn : JSNum → JSNum)
    (htt : info.trialType = some "image") :
    (recordTrialData info imageData mouseData duration sIso tIso w h cp
        bounds sqrtFn).map Prod.fst =
      trialBaseKeys ++ mouseSummaryKeys ++
        (if mouseData.length = 0 then [] else imageTimeKeys) := by
  rcases info with ⟨ti, rn, rti, ttyp, rst⟩
  replace htt : ttyp = some "image" := htt
  subst htt
  rcases imageData with ⟨d, t, po, f, g1, g2, g3, g4, pos⟩
  rcases pos with _ | pos <;> rcases mouseData with _ | ⟨m, ms⟩ <;>
    simp [recordTrialData, map_fst_setField,
      apply_ite (List.map (@Prod.fst String JSValue)),
      trialBaseKeys, mouseSummaryKeys, imageTimeKeys, fillerTimeKeys]

/-- Key set of a filler-trial record. -/
theorem recordTrialData_keys_filler (info : TrialInfo) (imageData : ImageData)
    (mouseData : List (Option MousePoint)) (duration : ℚ)
    (sIso tIso : String) (w h : ℚ) (cp : Bool)
    (bounds : String → Option Rect) (sqrtFn : JSNum → JSNum)
    (htt : info.trialType = some "filler") :
    (recordTrialData info imageData mouseData duration sIso tIso w h cp
        bounds sqrtFn).map Prod.fst =
      trialBaseKeys ++ mouseSummaryKeys ++
        (if mouseData.length = 0 then [] else fillerTimeKeys) := by
  rcases info with ⟨ti, rn, rti, ttyp, rst⟩
  replace htt : ttyp = some "filler" := htt
  subst htt
  rcases imageData with ⟨d, t, po, f, g1, g2, g3, g4, pos⟩
  rcases pos with _ | pos <;> rcases mouseData with _ | ⟨m, ms⟩ <;>
    simp [recordTrialData, map_fst_setField,
      apply_ite (List.map (@Prod.fst String JSValue)),
      trialBaseKeys, mouseSummaryKeys, imageTimeKeys, fillerTimeKeys]

/-- Every exported trial row has exactly the header's width: fields of a
record that are not in the header are dropped, header fields missing from a
record are emitted (as empty cells). -/
theorem exportTrialData_shape (recs : List JSRecord) (hdr : List String)
    (rows : List (List String)) (hx : exportTrialData recs = some (hdr, rows)) :
    rows.length = recs.length ∧ ∀ row ∈ rows, row.length = hdr.length := by
  rcases recs with _ | ⟨r0, rest⟩
  · simp [exportTrialData] at hx
  · rw [exportTrialData] at hx
    rw [Option.some.injEq, Prod.mk.injEq] at hx
    obtain ⟨rfl, rfl⟩ := hx
    refine ⟨by simp, ?_⟩
    intro row hrow
    obtain ⟨r, -, rfl⟩ := List.mem_map.1 hrow
    simp

/-- C6 (amended): the trial record's key set is *not* one fixed column
set — it is `trialBaseKeys ++ mouseSummaryKeys` extended, only when mouse
data is present, by per-image dwell keys that depend on the trial type; the
CSV header is taken from whichever record is first, and every row is then
forced to that header's width (missing fields become empty cells, extra
fields of other trial types are silently dropped). -/
theorem C6_export_columns :
    (∀ (info : TrialInfo) (imageData : ImageData)
        (mouseData : List (Option MousePoint)) (duration : ℚ)
        (sIso tIso : String) (w h : ℚ) (cp : Bool)
        (bounds : String → Option Rect) (sqrtFn : JSNum → JSNum),
      info.trialType = some "image" →
      (recordTrialData info imageData mouseData duration sIso tIso w h cp
          bounds sqrtFn).map Prod.fst =
        trialBaseKeys ++ mouseSummaryKeys ++
          (if mouseData.length = 0 then [] else imageTimeKeys)) ∧
    (∀ (info : TrialInfo) (imageData : ImageData)
        (mouseData : List (Option MousePoint)) (duration : ℚ)
        (sIso tIso : String) (w h : ℚ) (cp : Bool)
        (bounds : String → Option Rect) (sqrtFn : JSNum → JSNum),
      info.trialType = some "filler" →
      (recordTrialData info imageData mouseData duration sIso tIso w h cp
          bounds sqrtFn).map Prod.fst =
        trialBaseKeys ++ mouseSummaryKeys ++
          (if mouseData.length = 0 then [] else fillerTimeKeys)) ∧
    (∀ (recs : List JSRecord) (hdr : List String) (rows : List (List String)),
      exportTrialData recs = some (hdr, rows) →
      rows.length = recs.length ∧ ∀ row ∈ rows, row.length = hdr.length) :=
  ⟨recordTrialData_keys_image, recordTrialData_keys_filler, exportTrialData_shape⟩

/-- C6 (counterexample): with an image trial recorded first, the export
header is the image record's key set; the filler record's
`time_on_filler_1..4` columns are not in it, so they are omitted from the
export — the column set is not fixed across trial types. -/
theorem C6_counterexample_dropped_columns :
    (exportTrialData [imageTrialRecord, fillerTrialRecord]).map Prod.fst =
      some (trialBaseKeys ++ mouseSummaryKeys ++ imageTimeKeys) ∧
    "time_on_filler_1" ∈ fillerTrialRecord.map Prod.fst ∧
    "time_on_filler_1" ∉ trialBaseKeys ++ mouseSummaryKeys ++ imageTimeKeys := by
  have hA : imageTrialRecord.map Prod.fst =
      trialBaseKeys ++ mouseSummaryKeys ++ imageTimeKeys := by
    have hk := recordTrialData_keys_image ⟨0, some 1, some 1, some "image", 0⟩
      (ImageTrialSel.toImageData ⟨"d1", "t1", "p1", "f1",
        "top-left", "top-right", "bottom-left", "bottom-right"⟩)
      [plainSample] 0 "start" "ts" 800 600 true (fun _ => none) (fun x => x) rfl
    simpa [imageTrialRecord] using hk
  have hB : fillerTrialRecord.map Prod.fst =
      trialBaseKeys ++ mouseSummaryKeys ++ fillerTimeKeys := by
    have hk := recordTrialData_keys_filler ⟨1, some 1, some 2, some "filler", 0⟩
      (FillerTrialSel.toImageData ⟨"f2", "f3", "f4", "f5",
        "top-left", "top-right", "bottom-left", "bottom-right"⟩)
      [plainSample] 0 "start" "ts" 800 600 true (fun _ => none) (fun x => x) rfl
    simpa [fillerTrialRecord] using hk
  refine ⟨?_, ?_, by decide⟩
  · simp only [exportTrialData, Option.map_some']
    rw [hA]
    decide
  · rw [hB]
    decide

theorem C6_export_columns_witness :
    ((⟨0, some 1, some 1, some "image", 0⟩ : TrialInfo).trialType =
      some "image") ∧
    (recordTrialData ⟨0, some 1, some 1, some "image", 0⟩
        (ImageTrialSel.toImageData ⟨"d1", "t1", "p1", "f1",
          "top-left", "top-right", "bottom-left", "bottom-right"⟩)
        [plainSample] 0 "start" "ts" 800 600 true (fun _ => none)
        (fun x => x)).map Prod.fst =
      trialBaseKeys ++ mouseSummaryKeys ++
        (if ([plainSample] : List (Option MousePoint)).length = 0 then []
          else imageTimeKeys) ∧
    exportTrialData [[("a", JSValue.vStr "x")]] = some (["a"], [["x"]]) ∧
    ([["x"]] : List (List String)).length =
      ([[("a", JSValue.vStr "x")]] : List JSRecord).length ∧
    ∀ row ∈ ([["x"]] : List (List String)),
      row.length = (["a"] : List String).length :=
  ⟨rfl,
    C6_export_columns.1 ⟨0, some 1, some 1, some "image", 0⟩
      (ImageTrialSel.toImageData ⟨"d1", "t1", "p1", "f1",
        "top-left", "top-right", "bottom-left", "bottom-right"⟩)
      [plainSample] 0 "start" "ts" 800 600 true (fun _ => none) (fun x => x) rfl,
    by decide,
    (C6_export_columns.2.2 [[("a", JSValue.vStr "x")]] ["a"] [["x"]]
      (by decide)).1,
    (C6_export_columns.2.2 [[("a", JSValue.vStr "x")]] ["a"] [["x"]]
      (by decide)).2⟩

/-- C10: in the mouse-tracking CSV export, every field whose value is
falsy — the legitimate number `0` included — is written as the empty string,
so zero-valued data (velocity 0, `time_in_trial` 0, a coordinate of 0) is
indistinguishable in the exported rows from a missing field; this holds
end-to-end through `recordMouseData` for a sample whose velocity is 0 or
absent. -/
theorem C10_falsy_zero_exported_empty :
    (∀ v : JSValue, jsFalsy v = true → mouseCsvCell (some v) = "") ∧
    mouseCsvCell (some (.vNum (.finite 0))) = "" ∧
    mouseCsvCell none = "" ∧
    (∀ (w h : ℚ) (p : MousePoint) (px py : JSNum) (ti : Nat) (tt : String)
        (rn rti : Nat) (now : ℚ) (rec : JSRecord),
      p.x = some px → p.y = some py →
      p.velocity = none ∨ p.velocity = some (.finite 0) →
      rec ∈ recordMouseData w h [some p] ti tt rn rti now →
      mouseCsvCell (lookupField rec "velocity") = "") := by
  refine ⟨?_, ?_, rfl, ?_⟩
  · intro v hv
    simp [mouseCsvCell, hv]
  · simp [mouseCsvCell, jsFalsy, JSNum.falsy]
  · intro w h p px py ti tt rn rti now rec hx hy hv hrec
    simp only [recordMouseData, recordMouseDataAux, hx, hy,
      List.mem_singleton] at hrec
    subst hrec
    have hvel : jsOrNum p.velocity (.finite 0) = .finite 0 := by
      rcases hv with hv | hv <;> simp [jsOrNum, hv, JSNum.falsy]
    simp [lookupField, mouseCsvCell, jsFalsy, JSNum.falsy, hvel]

theorem C10_falsy_zero_exported_empty_witness :
    jsFalsy (.vNum (.finite 0)) = true ∧
    mouseCsvCell (some (.vNum (.finite 0))) = "" ∧
    zeroVelocityPoint.x = some (.finite 3) ∧
    (zeroVelocityPoint.velocity = none ∨
      zeroVelocityPoint.velocity = some (.finite 0)) ∧
    zeroVelocityRecord ∈ recordMouseData 800 600 [some zeroVelocityPoint]
      0 "image" 1 1 0 ∧
    mouseCsvCell (lookupField zeroVelocityRecord "velocity") = "" := by
  have hmem : zeroVelocityRecord ∈ recordMouseData 800 600
      [some zeroVelocityPoint] 0 "image" 1 1 0 := by
    simp [zeroVelocityRecord, recordMouseData, recordMouseDataAux,
      zeroVelocityPoint]
  exact ⟨by simp [jsFalsy, JSNum.falsy],
    C10_falsy_zero_exported_empty.1 (.vNum (.finite 0))
      (by simp [jsFalsy, JSNum.falsy]),
    rfl, Or.inr rfl, hmem,
    C10_falsy_zero_exported_empty.2.2.2 800 600 zeroVelocityPoint
      (.finite 3) (.finite 4) 0 "image" 1 1 0 zeroVelocityRecord rfl rfl
      (Or.inr rfl) hmem⟩

end FreeViewing
